import Mathlib

/-!
The s-calc salary converter and its exchange-rate pipeline.

A shallow embedding of `internal/converter/converter.go`,
`internal/exchangerate/cache.go`, `internal/exchangerate/api.go`,
`internal/cli/flags.go` and the flag branch of `cmd/s-calc/main.go`.

Modelling conventions.
* The converter is embedded twice.  In `Converter`, `float64` amounts and
  rates are exact rationals (`ℚ`): no rounding, no overflow, no underflow, no
  NaN, and `x / 0 = 0`; statements about it are statements over exact
  arithmetic.  In `Converter64` they are IEEE 754 binary64 values (`F64`) with
  correctly rounded operations, as the code computes them.
* Go `int` is `Int`; where the width of `int` matters (`NewConverterOn`) the
  wrap-around is explicit.
* Go `string` is `String`; the named string types `Period` and `Currency` are
  abbreviations of `String`, as in the source.
* A Go map is an association list with unique keys in insertion order
  (`GoMap`); a map that may be `nil` is an `Option` of it.
* Where the source indexes a string by bytes, the bytes are the UTF-8 encoding
  of the text (`goBytes`); strings that are not valid UTF-8 are not modelled.
* Files, the clock and the two HTTP endpoints are fields of an explicit
  `World`; JSON encoding and decoding are taken to be lossless.
-/

namespace SCalc

/-! ## Go maps -/

/-- Go map modelled as an association list; `mapSet` keeps the keys unique. -/
abbrev GoMap (κ ν : Type) := List (κ × ν)

/-- Map read with the comma-ok form `v, ok := m[k]`. -/
def mapGet {κ ν : Type} [DecidableEq κ] : GoMap κ ν → κ → Option ν
  | [], _ => none
  | (k', v) :: rest, k => if k' = k then some v else mapGet rest k

/-- Map assignment `m[k] = v`: overwrite an existing key, else add the key. -/
def mapSet {κ ν : Type} [DecidableEq κ] : GoMap κ ν → κ → ν → GoMap κ ν
  | [], k, v => [(k, v)]
  | (k', v') :: rest, k, v =>
      if k' = k then (k, v) :: rest else (k', v') :: mapSet rest k v

/-- Key set of a map, in insertion order. -/
def mapKeys {κ ν : Type} (m : GoMap κ ν) : List κ := m.map Prod.fst

/-! ## converter.go -/

abbrev Period := String

def PeriodHour : Period := "Hour"
def PeriodDay : Period := "Day"
def PeriodMonth : Period := "Month"
def PeriodYear : Period := "Year"

abbrev Currency := String

def CurrencyPLN : Currency := "PLN"
def CurrencyEUR : Currency := "EUR"
def CurrencyUSD : Currency := "USD"
def CurrencyGBP : Currency := "GBP"

def ValidCurrencies : List Currency := [CurrencyPLN, CurrencyEUR, CurrencyUSD, CurrencyGBP]

def ValidPeriods : List Period := [PeriodHour, PeriodDay, PeriodMonth, PeriodYear]

structure Input where
  Amount : ℚ
  Period : Period
  Currency : Currency

/-- The `Converter` struct; `rates = none` is the nil map. -/
structure Converter where
  hoursPerDay : Int
  daysPerMonth : Int
  rates : Option (GoMap String ℚ)
  baseCurrency : String

/-- Model of `strconv.ParseUint(s, 10, 32)`: decimal digits only, non-empty,
value below `2^32`; `none` stands for a returned error. -/
def parseUint32 (s : String) : Option Nat :=
  if s.isEmpty then none
  else if s.all Char.isDigit then
    let n := s.foldl (fun acc ch => acc * 10 + (ch.toNat - 48)) 0
    if n < 2 ^ 32 then some n else none
  else none

/-- `NewConverter`; the two environment variables `S_HOURS_DAY` and
`S_DAYS_MONTH` are passed in (`""` when unset).  `int(parsed)` is taken where
Go's `int` has 64 bits, so that a value below `2^32` is unchanged;
`NewConverterOn` has the width as a parameter. -/
def NewConverter (rates : Option (GoMap String ℚ)) (baseCurrency : String)
    (hoursEnv daysEnv : String) : Converter :=
  let hoursPerDay : Int :=
    if hoursEnv ≠ "" then
      match parseUint32 hoursEnv with
      | some parsed => if parsed > 0 then (parsed : Int) else 8
      | none => 8
    else 8
  let daysPerMonth : Int :=
    if daysEnv ≠ "" then
      match parseUint32 daysEnv with
      | some parsed => if parsed > 0 then (parsed : Int) else 21
      | none => 21
    else 21
  { hoursPerDay := hoursPerDay
    daysPerMonth := daysPerMonth
    rates := rates
    baseCurrency := baseCurrency }

def Converter.toHourly (c : Converter) (amount : ℚ) (period : Period) : ℚ :=
  if period = PeriodHour then amount
  else if period = PeriodDay then amount / (c.hoursPerDay : ℚ)
  else if period = PeriodMonth then
    amount / ((c.hoursPerDay : ℚ) * (c.daysPerMonth : ℚ))
  else if period = PeriodYear then
    amount / ((c.hoursPerDay : ℚ) * (c.daysPerMonth : ℚ) * 12)
  else amount

def Converter.fromHourly (c : Converter) (amount : ℚ) (period : Period) : ℚ :=
  if period = PeriodHour then amount
  else if period = PeriodDay then amount * (c.hoursPerDay : ℚ)
  else if period = PeriodMonth then
    amount * (c.hoursPerDay : ℚ) * (c.daysPerMonth : ℚ)
  else if period = PeriodYear then
    amount * (c.hoursPerDay : ℚ) * (c.daysPerMonth : ℚ) * 12
  else amount

def Converter.getRate (c : Converter) (src dst : String) : ℚ :=
  if src = dst then 1
  else
    match c.rates with
    | none => 1
    | some table =>
      let fromRate? : Option ℚ :=
        if src ≠ c.baseCurrency then mapGet table src else some 1
      match fromRate? with
      | none => 1
      | some fromRate =>
        let toRate? : Option ℚ :=
          if dst ≠ c.baseCurrency then mapGet table dst else some 1
        match toRate? with
        | none => 1
        | some toRate => toRate / fromRate

/-- Body of the inner loop of `Convert`: `result[period][currency] = ...`. -/
def Converter.convertCell (c : Converter) (input : Input) (baseHourly : ℚ)
    (period : Period) (result : GoMap Period (GoMap Currency ℚ))
    (currency : Currency) : GoMap Period (GoMap Currency ℚ) :=
  let amountInCurrency := baseHourly * c.getRate input.Currency currency
  mapSet result period
    (mapSet ((mapGet result period).getD []) currency
      (c.fromHourly amountInCurrency period))

/-- Body of the outer loop of `Convert`. -/
def Converter.convertRow (c : Converter) (input : Input) (baseHourly : ℚ)
    (result : GoMap Period (GoMap Currency ℚ)) (period : Period) :
    GoMap Period (GoMap Currency ℚ) :=
  ValidCurrencies.foldl (c.convertCell input baseHourly period)
    (mapSet result period [])

def Converter.Convert (c : Converter) (input : Input) :
    GoMap Period (GoMap Currency ℚ) :=
  let baseHourly := c.toHourly input.Amount input.Period
  ValidPeriods.foldl (c.convertRow input baseHourly) []

/-- Read of `result[period][currency]` in the comma-ok form: `none` when the
cell is absent. -/
def cell (result : GoMap Period (GoMap Currency ℚ)) (period : Period)
    (currency : Currency) : Option ℚ :=
  (mapGet result period).bind (fun row => mapGet row currency)

/-- Hour-based factor of a period, in the words of the specification: 1 for
Hour, `hoursPerDay` for Day, `hoursPerDay*daysPerMonth` for Month and
`hoursPerDay*daysPerMonth*12` for Year.  A string that is none of the four
gets factor 1. -/
def factor (c : Converter) (p : Period) : ℚ :=
  if p = "Hour" then 1
  else if p = "Day" then (c.hoursPerDay : ℚ)
  else if p = "Month" then (c.hoursPerDay : ℚ) * (c.daysPerMonth : ℚ)
  else if p = "Year" then (c.hoursPerDay : ℚ) * (c.daysPerMonth : ℚ) * 12
  else 1

/-- Rate of a currency code as `getRate` uses it: the base currency of the
converter has rate 1 and the table is not consulted for it; any other code has
the rate the table holds for it, and none when the table is nil or lacks the
code. -/
def knownRate (c : Converter) (code : String) : Option ℚ :=
  if code = c.baseCurrency then some 1
  else
    match c.rates with
    | none => none
    | some table => mapGet table code

/-! ## Errors, time, files and network -/

/-- Go `error` values: a plain message, or `fmt.Errorf("text: %w", cause)`. -/
inductive GoError where
  | message (text : String)
  | wrapped (text : String) (cause : GoError)
  deriving DecidableEq, Repr

/-- The `time.Hour` duration, in nanoseconds. -/
def hour : Int := 3600000000000

structure CacheData where
  Base : String
  Rates : Option (GoMap String ℚ)
  Timestamp : Int
  Source : String
  ExpiresAt : Int
  deriving DecidableEq

structure Cache where
  cacheDir : String
  ttl : Int

structure RateInfo where
  Source : String
  Timestamp : Int
  ExpiresAt : Int
  deriving DecidableEq

structure RateResponse where
  Base : String
  Rates : Option (GoMap String ℚ)
  Date : String

/-- The anonymous response struct of `fetchFromFallback`. -/
structure FallbackResponse where
  Success : Bool
  Base : String
  Rates : Option (GoMap String ℚ)
  Date : String

/-- What `os.ReadFile` followed by `json.Unmarshal` finds at a path. -/
inductive FileState where
  | notExist
  | readError (err : GoError)
  | malformed (err : GoError)
  | snapshot (data : CacheData)

/-- Outcome of `io.ReadAll` followed by `json.Unmarshal` on a response body. -/
inductive Body (α : Type) where
  | unreadable (err : GoError)
  | undecodable (err : GoError)
  | decoded (value : α)

/-- Outcome of `http.Get`. -/
inductive HttpReply (α : Type) where
  | transportError (err : GoError)
  | response (statusCode : Nat) (body : Body α)

/-- Observable effects of a run, oldest first. -/
inductive Effect where
  | readFile (path : String)
  | httpGet (url : String)
  | writeFile (path : String) (data : CacheData)
  deriving DecidableEq

/-- The environment the exchange-rate code runs in.  `clock n` is the value of
the `n`-th call of `time.Now()`, in nanoseconds; `reads` counts the calls made
so far.  `writeError path` is the error `os.WriteFile` returns at `path`.  The
two HTTP endpoints are keyed by URL. -/
structure World where
  files : String → FileState
  writeError : String → Option GoError
  clock : Nat → Int
  reads : Nat
  primary : String → HttpReply RateResponse
  fallback : String → HttpReply FallbackResponse
  trace : List Effect

/-- A call of `time.Now()`. -/
def World.now (w : World) : Int × World :=
  (w.clock w.reads, { w with reads := w.reads + 1 })

def World.logged (w : World) (e : Effect) : World :=
  { w with trace := w.trace ++ [e] }

/-! ## cache.go -/

/-- The path `filepath.Join(c.cacheDir, "rates-<base>.json")`. -/
def Cache.cacheFile (c : Cache) (baseCurrency : String) : String :=
  c.cacheDir ++ "/" ++ ("rates-" ++ baseCurrency ++ ".json")

def Cache.Get (c : Cache) (baseCurrency : String) (w : World) :
    Except GoError (Option CacheData) × World :=
  let cacheFile := c.cacheFile baseCurrency
  let w := w.logged (.readFile cacheFile)
  match w.files cacheFile with
  | .notExist => (.ok none, w)
  | .readError err => (.error (.wrapped "failed to read cache file" err), w)
  | .malformed err => (.error (.wrapped "failed to parse cache file" err), w)
  | .snapshot cacheData =>
    let (now, w) := w.now
    if now > cacheData.ExpiresAt then (.ok none, w) else (.ok (some cacheData), w)

/-- `Cache.Set`; `json.MarshalIndent` cannot fail on rational rates.  A failed
write leaves the file as it was. -/
def Cache.Set (c : Cache) (baseCurrency : String) (rates : Option (GoMap String ℚ))
    (source : String) (w : World) : Option GoError × World :=
  let cacheFile := c.cacheFile baseCurrency
  let (now, w) := w.now
  let cacheData : CacheData :=
    { Base := baseCurrency
      Rates := rates
      Timestamp := now
      Source := source
      ExpiresAt := now + c.ttl }
  let w := w.logged (.writeFile cacheFile cacheData)
  match w.writeError cacheFile with
  | some err => (some (.wrapped "failed to write cache file" err), w)
  | none =>
    (none, { w with files := fun path =>
      if path = cacheFile then .snapshot cacheData else w.files path })

/-! ## api.go -/

structure ExchangeRateAPI where
  cache : Cache

def ExchangeRateAPI.fetchFromPrimary (_api : ExchangeRateAPI) (baseCurrency : String)
    (w : World) : Except GoError (Option (GoMap String ℚ) × RateInfo) × World :=
  let url := "https://api.exchangerate-api.com/v4/latest/" ++ baseCurrency
  let w := w.logged (.httpGet url)
  match w.primary url with
  | .transportError err => (.error err, w)
  | .response statusCode body =>
    if statusCode ≠ 200 then
      (.error (.message ("API returned status " ++ toString statusCode)), w)
    else
      match body with
      | .unreadable err => (.error err, w)
      | .undecodable err => (.error err, w)
      | .decoded rateResp =>
        let rates := mapSet (rateResp.Rates.getD []) baseCurrency 1
        let (t1, w) := w.now
        let (t2, w) := w.now
        (.ok (some rates,
          { Source := "exchangerate-api.com", Timestamp := t1, ExpiresAt := t2 + 24 * hour }), w)

def ExchangeRateAPI.fetchFromFallback (_api : ExchangeRateAPI) (baseCurrency : String)
    (w : World) : Except GoError (Option (GoMap String ℚ) × RateInfo) × World :=
  let url := "https://api.exchangerate.host/latest?base=" ++ baseCurrency
  let w := w.logged (.httpGet url)
  match w.fallback url with
  | .transportError err => (.error err, w)
  | .response statusCode body =>
    if statusCode ≠ 200 then
      (.error (.message ("API returned status " ++ toString statusCode)), w)
    else
      match body with
      | .unreadable err => (.error err, w)
      | .undecodable err => (.error err, w)
      | .decoded response =>
        if !response.Success then
          (.error (.message "API returned success=false"), w)
        else
          let rates := mapSet (response.Rates.getD []) baseCurrency 1
          let (t1, w) := w.now
          let (t2, w) := w.now
          (.ok (some rates,
            { Source := "exchangerate.host", Timestamp := t1, ExpiresAt := t2 + 24 * hour }), w)

def ExchangeRateAPI.GetRates (api : ExchangeRateAPI) (baseCurrency : String) (w : World) :
    Except GoError (Option (GoMap String ℚ) × RateInfo) × World :=
  match api.cache.Get baseCurrency w with
  | (.ok (some cached), w) =>
    (.ok (cached.Rates,
      { Source := cached.Source, Timestamp := cached.Timestamp, ExpiresAt := cached.ExpiresAt }),
      w)
  | (_, w) =>
    match api.fetchFromPrimary baseCurrency w with
    | (.ok (rates, info), w) =>
      let (_, w) := api.cache.Set baseCurrency rates info.Source w
      (.ok (rates, info), w)
    | (.error _, w) =>
      match api.fetchFromFallback baseCurrency w with
      | (.ok (rates, info), w) =>
        let (_, w) := api.cache.Set baseCurrency rates info.Source w
        (.ok (rates, info), w)
      | (.error err, w) =>
        match api.cache.Get baseCurrency w with
        | (.ok (some cached), w) =>
          (.ok (cached.Rates,
            { Source := cached.Source ++ " (expired)", Timestamp := cached.Timestamp,
              ExpiresAt := cached.ExpiresAt }), w)
        | (_, w) => (.error (.wrapped "failed to fetch exchange rates" err), w)

/-! ## Scenario data -/

/-- Rate table of the scenario: EUR 1.0, USD 1.1, PLN 4.25, GBP 0.85. -/
def scenarioRates : GoMap String ℚ :=
  [("EUR", 1), ("USD", 11 / 10), ("PLN", 425 / 100), ("GBP", 85 / 100)]

/-- Converter of the scenario: 8 hours a day, 21 days a month, base EUR. -/
def scenarioConverter : Converter :=
  { hoursPerDay := 8, daysPerMonth := 21, rates := some scenarioRates, baseCurrency := "EUR" }

def scenarioInput : Input := { Amount := 5000, Period := PeriodMonth, Currency := CurrencyEUR }

/-- A converter whose table has no entry for its base currency EUR. -/
def baselessConverter : Converter :=
  { hoursPerDay := 8, daysPerMonth := 21, rates := some [("USD", 11 / 10)],
    baseCurrency := "EUR" }

/-- A converter whose table lists its base currency EUR at rate 2. -/
def skewedConverter : Converter :=
  { hoursPerDay := 8, daysPerMonth := 21, rates := some [("EUR", 2), ("USD", 11 / 10)],
    baseCurrency := "EUR" }

/-! ## Sample environments -/

/-- An API value whose cache lives in `/cache` with a TTL of 24 hours. -/
def sampleAPI : ExchangeRateAPI := { cache := { cacheDir := "/cache", ttl := 24 * hour } }

/-- A snapshot for base EUR fetched at time 0 that expires 24 hours later. -/
def sampleSnapshot : CacheData :=
  { Base := "EUR"
    Rates := some scenarioRates
    Timestamp := 0
    Source := "exchangerate-api.com"
    ExpiresAt := 24 * hour }

/-- An environment in which the cache file for EUR holds `sampleSnapshot`, the
clock starts at `start` and advances by one nanosecond with each reading, the
primary endpoint is unreachable and the fallback endpoint answers 503. -/
def offlineWorld (start : Int) : World :=
  { files := fun path =>
      if path = "/cache/rates-EUR.json" then .snapshot sampleSnapshot else .notExist
    writeError := fun _ => none
    clock := fun n => start + n
    reads := 0
    primary := fun _ => .transportError (.message "dial tcp: no route to host")
    fallback := fun _ => .response 503 (.unreadable (.message "unexpected EOF"))
    trace := [] }

/-- Whether an effect is a read of a cache file. -/
def Effect.isRead : Effect → Bool
  | .readFile _ => true
  | _ => false

/-- Whether an effect is a write of a cache file. -/
def Effect.isWrite : Effect → Bool
  | .writeFile _ _ => true
  | _ => false

/-- A primary payload that lists the base EUR at 2 and USD at 1.1. -/
def samplePayload : RateResponse :=
  { Base := "EUR", Rates := some [("EUR", 2), ("USD", 11 / 10)], Date := "2026-01-02" }

/-- A fallback payload with the success flag set and no rates at all. -/
def sampleFallbackPayload : FallbackResponse :=
  { Success := true, Base := "EUR", Rates := none, Date := "2026-01-02" }

/-- An environment with the given state of the cache file for EUR and the
given answers of the two endpoints; the clock starts at `start` and advances
by one nanosecond with each reading, and writes succeed. -/
def sampleWorld (file : FileState) (start : Int) (primary : HttpReply RateResponse)
    (fallback : HttpReply FallbackResponse) : World :=
  { files := fun path => if path = "/cache/rates-EUR.json" then file else .notExist
    writeError := fun _ => none
    clock := fun n => start + n
    reads := 0
    primary := fun _ => primary
    fallback := fun _ => fallback
    trace := [] }

/-- No cache file, the primary unreachable, the fallback answering with
`sampleFallbackPayload`. -/
def fallbackOnlyWorld : World :=
  sampleWorld .notExist 0 (.transportError (.message "dial tcp: no route to host"))
    (.response 200 (.decoded sampleFallbackPayload))

/-- No cache file, the primary answering with `samplePayload`. -/
def primaryUpWorld : World :=
  sampleWorld .notExist 0 (.response 200 (.decoded samplePayload))
    (.response 200 (.decoded sampleFallbackPayload))

/-! ## Strings as bytes

Go indexes and slices a string by bytes.  A Go string is modelled by the text
it holds; `goBytes` gives its bytes, the UTF-8 encoding of the text.  Byte
values are natural numbers below 256, with `% 256` where `uint8` arithmetic
wraps. -/

/-- UTF-8 encoding of a character. -/
def utf8Char (c : Char) : List Nat :=
  let v := c.toNat
  if v < 128 then [v]
  else if v < 2048 then [192 + v / 64, 128 + v % 64]
  else if v < 65536 then [224 + v / 4096, 128 + v / 64 % 64, 128 + v % 64]
  else [240 + v / 262144, 128 + v / 4096 % 64, 128 + v / 64 % 64, 128 + v % 64]

def bytesOf : List Char → List Nat
  | [] => []
  | c :: cs => utf8Char c ++ bytesOf cs

/-- The bytes of a Go string holding the text `s`. -/
def goBytes (s : String) : List Nat := bytesOf s.data

/-- Go's conversion `string(b)` of a byte value `b`: the UTF-8 encoding of the
code point `b`. -/
def byteToString (b : Nat) : List Nat :=
  if b < 128 then [b] else [192 + b / 64, 128 + b % 64]

/-- The bytes of `fmt.Sprintf("%s%s", string(s[0]-32), s[1:])`; `none` is the
index-out-of-range panic of `s[0]` on the empty string.  The subtraction is on
`uint8` and wraps. -/
def capitalized (s : String) : Option (List Nat) :=
  match goBytes s with
  | [] => none
  | b :: rest => some (byteToString ((b + 256 - 32) % 256) ++ rest)

/-- How a call ends: a value with a nil error, an error, or a runtime panic. -/
inductive Outcome (α : Type) where
  | value (v : α)
  | failure (err : GoError)
  | panic
  deriving DecidableEq

/-- The `for` loop of `ValidateCurrency` over the currencies still to try. -/
def validateCurrencyLoop (currency : String) : List Currency → Outcome Currency
  | [] =>
    .failure (.message ("invalid currency: " ++ currency ++ " (supported: PLN, EUR, USD, GBP)"))
  | c :: rest =>
    if c = currency then .value c
    else
      match capitalized currency with
      | none => .panic
      | some candidate =>
        if goBytes c = candidate then .value c else validateCurrencyLoop currency rest

def ValidateCurrency (currency : String) : Outcome Currency :=
  validateCurrencyLoop currency ValidCurrencies

/-- The `for` loop of `ValidatePeriod` over the periods still to try. -/
def validatePeriodLoop (period : String) : List Period → Outcome Period
  | [] =>
    .failure (.message ("invalid period: " ++ period ++ " (supported: Hour, Day, Month, Year)"))
  | p :: rest =>
    if p = period then .value p
    else
      match capitalized period with
      | none => .panic
      | some candidate =>
        if goBytes p = candidate then .value p else validatePeriodLoop period rest

def ValidatePeriod (period : String) : Outcome Period :=
  validatePeriodLoop period ValidPeriods

/-- Equality of two texts ignoring ASCII case. -/
def eqIgnoreAsciiCase (a b : String) : Bool :=
  a.data.map Char.toLower == b.data.map Char.toLower

/-! ## flags.go -/

/-- The `Flags` struct; a `*float64` field is an `Option`, `none` being nil. -/
structure Flags where
  Hour : Option ℚ
  Day : Option ℚ
  Month : Option ℚ
  Year : Option ℚ
  Currency : String
  Verbose : Bool

/-- The test `p != nil && *p > 0`, with the value pointed to when it holds. -/
def positiveFlag (p : Option ℚ) : Option ℚ :=
  match p with
  | some v => if v > 0 then some v else none
  | none => none

def Flags.HasInput (f : Flags) : Bool :=
  (positiveFlag f.Hour).isSome || (positiveFlag f.Day).isSome ||
    (positiveFlag f.Month).isSome || (positiveFlag f.Year).isSome

/-- `GetInput`; the result is `(amount, period, currency, ok)`. -/
def Flags.GetInput (f : Flags) : ℚ × String × String × Bool :=
  if !f.HasInput then (0, "", "", false)
  else
    match positiveFlag f.Hour with
    | some v => (v, "Hour", f.Currency, true)
    | none =>
      match positiveFlag f.Day with
      | some v => (v, "Day", f.Currency, true)
      | none =>
        match positiveFlag f.Month with
        | some v => (v, "Month", f.Currency, true)
        | none =>
          match positiveFlag f.Year with
          | some v => (v, "Year", f.Currency, true)
          | none => (0, "", "", false)

/-- The `switch periodChar` of `ParseLegacyFormat`; `none` is the `default`
branch. -/
def legacyPeriod (periodChar : Nat) : Option String :=
  if periodChar = 104 ∨ periodChar = 72 then some "Hour"
  else if periodChar = 100 ∨ periodChar = 68 then some "Day"
  else if periodChar = 109 ∨ periodChar = 77 then some "Month"
  else if periodChar = 121 ∨ periodChar = 89 then some "Year"
  else none

/-- The first loop of `ParseLegacyFormat`, giving `(amount, period, ok)`.
`parseFloat` stands for `strconv.ParseFloat(valStr, 64)` on the bytes of
`valStr`, `none` being a returned error. -/
def legacyAmountLoop (parseFloat : List Nat → Option ℚ) : List String → ℚ × String × Bool
  | [] => (0, "", false)
  | arg :: rest =>
    match goBytes arg with
    | b0 :: periodChar :: b2 :: b3 :: tail =>
      if b0 = 45 then
        if b2 = 61 then
          match parseFloat (b3 :: tail) with
          | some val =>
            if val > 0 then
              match legacyPeriod periodChar with
              | some period => (val, period, true)
              | none => legacyAmountLoop parseFloat rest
            else legacyAmountLoop parseFloat rest
          | none => legacyAmountLoop parseFloat rest
        else legacyAmountLoop parseFloat rest
      else legacyAmountLoop parseFloat rest
    | _ => legacyAmountLoop parseFloat rest

/-- The second loop of `ParseLegacyFormat`: the first argument of three bytes,
or `""`. -/
def legacyCurrencyLoop : List String → String
  | [] => ""
  | arg :: rest => if (goBytes arg).length = 3 then arg else legacyCurrencyLoop rest

/-- `ParseLegacyFormat`; the result is `(amount, period, currency, ok)`. -/
def ParseLegacyFormat (parseFloat : List Nat → Option ℚ) (args : List String) :
    ℚ × String × String × Bool :=
  if args.length < 1 then (0, "", "", false)
  else
    let (amount, period, ok) := legacyAmountLoop parseFloat args
    let currency := legacyCurrencyLoop args
    let currency := if currency = "" then "EUR" else currency
    (amount, period, currency, ok)

/-! ## main.go -/

/-- The branch of `main` taken when `flags.HasInput()` holds, up to the
construction of the `Input`; an `os.Exit(1)` after an error message is a
`failure`. -/
def inputFromFlags (f : Flags) : Outcome Input :=
  let (amount, periodStr, currencyStr, ok) := f.GetInput
  if !ok then .failure (.message "invalid input")
  else
    match ValidatePeriod periodStr with
    | .failure err => .failure err
    | .panic => .panic
    | .value period =>
      match ValidateCurrency currencyStr with
      | .failure err => .failure err
      | .panic => .panic
      | .value currency => .value { Amount := amount, Period := period, Currency := currency }

/-- The flags that `ParseFlags` yields for the command line `-h=20 -c ""`. -/
def emptyCurrencyFlags : Flags :=
  { Hour := some 20, Day := some 0, Month := some 0, Year := some 0, Currency := "",
    Verbose := false }

/-- An API value whose cache has a TTL of one hour (`S_CALC_CACHE_TTL=1`). -/
def shortTtlAPI : ExchangeRateAPI := { cache := { cacheDir := "/cache", ttl := hour } }

/-! ## binary64

The converter computes in `float64`.  Next to the exact embedding above, the
same functions are embedded over IEEE 754 binary64 values with correctly
rounded multiplication and division (round to nearest, ties to even), signed
zeros, infinities and NaN. -/

/-- A binary64 value.  `finite neg m e` is `(-1)^neg * m * 2^e` with
`m < 2^53` and `-1074 ≤ e ≤ 971`, and `2^52 ≤ m` unless `e = -1074` (zero and
the subnormal numbers). -/
inductive F64 where
  | finite (neg : Bool) (m : Nat) (e : Int)
  | inf (neg : Bool)
  | nan
  deriving DecidableEq, Repr

/-- Whether `d * 2^k ≤ n`. -/
def geScaled (n d : Nat) (k : Int) : Bool :=
  if 0 ≤ k then decide (d * 2 ^ k.toNat ≤ n) else decide (d ≤ n * 2 ^ (-k).toNat)

/-- The largest `k` from -4400 to 3791 with `d * 2^k ≤ n`: the integer part of
the binary logarithm of `n / d`, found by binary search. -/
def floorLog2 (n d : Nat) : Int :=
  [4096, 2048, 1024, 512, 256, 128, 64, 32, 16, 8, 4, 2, 1].foldl
    (fun k step => if geScaled n d (k + step) then k + step else k) (-4400)

/-- The binary64 value nearest to `(-1)^neg * n / d`, ties to even; overflow
gives an infinity, underflow a subnormal number or a zero. -/
def F64.round (neg : Bool) (n d : Nat) : F64 :=
  if n = 0 then .finite neg 0 (-1074)
  else
    let e : Int := max (floorLog2 n d - 52) (-1074)
    let num : Nat := if e < 0 then n * 2 ^ (-e).toNat else n
    let den : Nat := if e < 0 then d else d * 2 ^ e.toNat
    let q := num / den
    let r := num % den
    let m := if 2 * r < den then q else if den < 2 * r then q + 1 else q + q % 2
    let m' := if m = 2 ^ 53 then 2 ^ 52 else m
    let e' := if m = 2 ^ 53 then e + 1 else e
    if e' > 971 then .inf neg else .finite neg m' e'

/-- Conversion `float64(i)` of an integer. -/
def F64.ofInt (i : Int) : F64 := F64.round (decide (i < 0)) i.natAbs 1

/-- The binary64 value of the decimal literal `n / d`, as a parser gives it. -/
def F64.ofRatio (n d : Nat) : F64 := F64.round false n d

/-- Product of two binary64 values, `x * y` in Go. -/
def F64.mul : F64 → F64 → F64
  | .nan, _ => .nan
  | _, .nan => .nan
  | .inf s, .inf t => .inf (xor s t)
  | .inf s, .finite t m _ => if m = 0 then .nan else .inf (xor s t)
  | .finite s m _, .inf t => if m = 0 then .nan else .inf (xor s t)
  | .finite s m e, .finite t m2 e2 =>
    if 0 ≤ e + e2 then F64.round (xor s t) (m * m2 * 2 ^ (e + e2).toNat) 1
    else F64.round (xor s t) (m * m2) (2 ^ (-(e + e2)).toNat)

/-- Quotient of two binary64 values, `x / y` in Go. -/
def F64.div : F64 → F64 → F64
  | .nan, _ => .nan
  | _, .nan => .nan
  | .inf _, .inf _ => .nan
  | .inf s, .finite t _ _ => .inf (xor s t)
  | .finite s _ _, .inf t => .finite (xor s t) 0 (-1074)
  | .finite s m e, .finite t m2 e2 =>
    if m2 = 0 then (if m = 0 then .nan else .inf (xor s t))
    else if 0 ≤ e - e2 then F64.round (xor s t) (m * 2 ^ (e - e2).toNat) m2
    else F64.round (xor s t) m (m2 * 2 ^ (-(e - e2)).toNat)

/-- The comparison `x > 0` of Go; false for NaN and for both zeros. -/
def F64.isPos : F64 → Bool
  | .finite false m _ => decide (0 < m)
  | .inf false => true
  | _ => false

/-- The comparison `x >= 0` of Go; false for NaN, true for both zeros. -/
def F64.isNonneg : F64 → Bool
  | .finite false _ _ => true
  | .finite true m _ => decide (m = 0)
  | .inf false => true
  | _ => false

/-- The comparison `x == y` of Go; false when either is NaN, true for the two
zeros. -/
def F64.eq : F64 → F64 → Bool
  | .nan, _ => false
  | _, .nan => false
  | .finite s m e, .finite t m2 e2 =>
    if m = 0 ∧ m2 = 0 then true else decide (s = t ∧ m = m2 ∧ e = e2)
  | x, y => decide (x = y)

/-- The value 1.0. -/
def F64.one : F64 := .finite false (2 ^ 52) (-52)

/-! ## converter.go over binary64 -/

structure Input64 where
  Amount : F64
  Period : Period
  Currency : Currency

/-- The `Converter` struct with `float64` rates. -/
structure Converter64 where
  hoursPerDay : Int
  daysPerMonth : Int
  rates : Option (GoMap String F64)
  baseCurrency : String

def Converter64.toHourly (c : Converter64) (amount : F64) (period : Period) : F64 :=
  if period = PeriodHour then amount
  else if period = PeriodDay then F64.div amount (F64.ofInt c.hoursPerDay)
  else if period = PeriodMonth then
    F64.div amount (F64.mul (F64.ofInt c.hoursPerDay) (F64.ofInt c.daysPerMonth))
  else if period = PeriodYear then
    F64.div amount
      (F64.mul (F64.mul (F64.ofInt c.hoursPerDay) (F64.ofInt c.daysPerMonth)) (F64.ofInt 12))
  else amount

def Converter64.fromHourly (c : Converter64) (amount : F64) (period : Period) : F64 :=
  if period = PeriodHour then amount
  else if period = PeriodDay then F64.mul amount (F64.ofInt c.hoursPerDay)
  else if period = PeriodMonth then
    F64.mul (F64.mul amount (F64.ofInt c.hoursPerDay)) (F64.ofInt c.daysPerMonth)
  else if period = PeriodYear then
    F64.mul (F64.mul (F64.mul amount (F64.ofInt c.hoursPerDay)) (F64.ofInt c.daysPerMonth))
      (F64.ofInt 12)
  else amount

def Converter64.getRate (c : Converter64) (src dst : String) : F64 :=
  if src = dst then F64.one
  else
    match c.rates with
    | none => F64.one
    | some table =>
      let fromRate? : Option F64 :=
        if src ≠ c.baseCurrency then mapGet table src else some F64.one
      match fromRate? with
      | none => F64.one
      | some fromRate =>
        let toRate? : Option F64 :=
          if dst ≠ c.baseCurrency then mapGet table dst else some F64.one
        match toRate? with
        | none => F64.one
        | some toRate => F64.div toRate fromRate

/-- Body of the inner loop of `Convert`. -/
def Converter64.convertCell (c : Converter64) (input : Input64) (baseHourly : F64)
    (period : Period) (result : GoMap Period (GoMap Currency F64))
    (currency : Currency) : GoMap Period (GoMap Currency F64) :=
  let amountInCurrency := F64.mul baseHourly (c.getRate input.Currency currency)
  mapSet result period
    (mapSet ((mapGet result period).getD []) currency
      (c.fromHourly amountInCurrency period))

/-- Body of the outer loop of `Convert`. -/
def Converter64.convertRow (c : Converter64) (input : Input64) (baseHourly : F64)
    (result : GoMap Period (GoMap Currency F64)) (period : Period) :
    GoMap Period (GoMap Currency F64) :=
  ValidCurrencies.foldl (c.convertCell input baseHourly period)
    (mapSet result period [])

def Converter64.Convert (c : Converter64) (input : Input64) :
    GoMap Period (GoMap Currency F64) :=
  let baseHourly := c.toHourly input.Amount input.Period
  ValidPeriods.foldl (c.convertRow input baseHourly) []

/-- Read of `result[period][currency]` in the comma-ok form. -/
def cell64 (result : GoMap Period (GoMap Currency F64)) (period : Period)
    (currency : Currency) : Option F64 :=
  (mapGet result period).bind (fun row => mapGet row currency)

/-- The scenario's converter over binary64: 8 hours a day, 21 days a month,
base EUR, rates EUR 1.0, USD 1.1, PLN 4.25, GBP 0.85 as a JSON decoder yields
them. -/
def scenarioConverter64 : Converter64 :=
  { hoursPerDay := 8
    daysPerMonth := 21
    rates := some [("EUR", F64.ofRatio 1 1), ("USD", F64.ofRatio 11 10),
      ("PLN", F64.ofRatio 425 100), ("GBP", F64.ofRatio 85 100)]
    baseCurrency := "EUR" }

/-- The smallest positive binary64 value, `2^(-1074)`, written 5e-324. -/
def F64.minSubnormal : F64 := .finite false 1 (-1074)

/-- A converter with base EUR whose table holds PLN at the binary64 value of
1e-308 and USD at the binary64 value of 1e308. -/
def extremeConverter64 : Converter64 :=
  { hoursPerDay := 8
    daysPerMonth := 21
    rates := some [("PLN", .finite false 2024022533073106 (-1074)),
      ("USD", .finite false 5010420900022432 971)]
    baseCurrency := "EUR" }

/-- Conversion `int(parsed)` of a `uint64` value where Go's `int` has `bits`
bits: the value modulo `2^bits`, read in two's complement. -/
def intOfUint (bits : Nat) (n : Nat) : Int :=
  if n % 2 ^ bits < 2 ^ (bits - 1) then ((n % 2 ^ bits : Nat) : Int)
  else ((n % 2 ^ bits : Nat) : Int) - 2 ^ bits

/-- `NewConverter` on a target whose `int` has `bits` bits (32 on 386 and arm,
64 elsewhere). -/
def NewConverterOn (bits : Nat) (rates : Option (GoMap String ℚ)) (baseCurrency : String)
    (hoursEnv daysEnv : String) : Converter :=
  let hoursPerDay : Int :=
    if hoursEnv ≠ "" then
      match parseUint32 hoursEnv with
      | some parsed => if parsed > 0 then intOfUint bits parsed else 8
      | none => 8
    else 8
  let daysPerMonth : Int :=
    if daysEnv ≠ "" then
      match parseUint32 daysEnv with
      | some parsed => if parsed > 0 then intOfUint bits parsed else 21
      | none => 21
    else 21
  { hoursPerDay := hoursPerDay
    daysPerMonth := daysPerMonth
    rates := rates
    baseCurrency := baseCurrency }

/-! ## Facts about Go maps -/

theorem mapGet_mem {κ ν : Type} [DecidableEq κ] (m : GoMap κ ν) (k : κ) (v : ν)
    (h : mapGet m k = some v) : (k, v) ∈ m := by
  induction m with
  | nil => simp [mapGet] at h
  | cons e rest ih =>
    obtain ⟨k', v'⟩ := e
    by_cases hk : k' = k
    · simp [mapGet, hk] at h
      simp [hk, h]
    · simp [mapGet, hk] at h
      exact List.mem_cons_of_mem _ (ih h)

/-! ## Converter -/

theorem Convert_unfold (c : Converter) (input : Input) :
    c.Convert input =
      ValidPeriods.map (fun p => (p, ValidCurrencies.map (fun cur =>
        (cur, c.fromHourly
          (c.toHourly input.Amount input.Period * c.getRate input.Currency cur) p)))) := by
  simp [Converter.Convert, Converter.convertRow, Converter.convertCell, ValidPeriods,
    ValidCurrencies, mapGet, mapSet, PeriodHour, PeriodDay, PeriodMonth, PeriodYear,
    CurrencyPLN, CurrencyEUR, CurrencyUSD, CurrencyGBP]

theorem cell_Convert (c : Converter) (input : Input) (p : Period) (cur : Currency)
    (hp : p ∈ ValidPeriods) (hc : cur ∈ ValidCurrencies) :
    cell (c.Convert input) p cur =
      some (c.fromHourly
        (c.toHourly input.Amount input.Period * c.getRate input.Currency cur) p) := by
  rw [Convert_unfold]
  simp only [ValidPeriods, ValidCurrencies, PeriodHour, PeriodDay, PeriodMonth, PeriodYear,
    CurrencyPLN, CurrencyEUR, CurrencyUSD, CurrencyGBP, List.mem_cons, List.mem_singleton,
    List.not_mem_nil, or_false] at hp hc
  rcases hp with rfl | rfl | rfl | rfl <;> rcases hc with rfl | rfl | rfl | rfl <;>
    simp [cell, mapGet, ValidPeriods, ValidCurrencies, PeriodHour, PeriodDay, PeriodMonth,
      PeriodYear, CurrencyPLN, CurrencyEUR, CurrencyUSD, CurrencyGBP]

theorem getRate_self (c : Converter) (code : String) : c.getRate code code = 1 := by
  simp [Converter.getRate]

theorem toHourly_fromHourly (c : Converter) (x : ℚ) (p : Period)
    (hh : 0 < c.hoursPerDay) (hd : 0 < c.daysPerMonth) :
    c.toHourly (c.fromHourly x p) p = x := by
  have h1 : (c.hoursPerDay : ℚ) ≠ 0 := by exact_mod_cast hh.ne'
  have h2 : (c.daysPerMonth : ℚ) ≠ 0 := by exact_mod_cast hd.ne'
  unfold Converter.toHourly Converter.fromHourly
  split_ifs <;> first | rfl | (field_simp; done) | (field_simp; ring)

theorem fromHourly_toHourly (c : Converter) (x : ℚ) (p : Period)
    (hh : 0 < c.hoursPerDay) (hd : 0 < c.daysPerMonth) :
    c.fromHourly (c.toHourly x p) p = x := by
  have h1 : (c.hoursPerDay : ℚ) ≠ 0 := by exact_mod_cast hh.ne'
  have h2 : (c.daysPerMonth : ℚ) ≠ 0 := by exact_mod_cast hd.ne'
  unfold Converter.toHourly Converter.fromHourly
  split_ifs <;> first | rfl | (field_simp; done) | (field_simp; ring)

theorem toHourly_eq_div_factor (c : Converter) (x : ℚ) (p : Period) :
    c.toHourly x p = x / factor c p := by
  unfold Converter.toHourly factor PeriodHour PeriodDay PeriodMonth PeriodYear
  split_ifs <;> simp

theorem fromHourly_eq_mul_factor (c : Converter) (x : ℚ) (p : Period) :
    c.fromHourly x p = factor c p * x := by
  unfold Converter.fromHourly factor PeriodHour PeriodDay PeriodMonth PeriodYear
  split_ifs <;> ring

theorem getRate_eq (c : Converter) (src dst : String) :
    c.getRate src dst =
      if src = dst then 1
      else
        match knownRate c src, knownRate c dst with
        | some f, some t => t / f
        | _, _ => 1 := by
  unfold Converter.getRate knownRate
  by_cases h : src = dst
  · simp [h]
  · simp only [h, if_false]
    cases hr : c.rates with
    | none =>
      by_cases hs : src = c.baseCurrency <;> by_cases hd : dst = c.baseCurrency <;>
        simp [hs, hd]
    | some table =>
      by_cases hs : src = c.baseCurrency <;> by_cases hd : dst = c.baseCurrency
      · exact absurd (hs.trans hd.symm) h
      · cases hd2 : mapGet table dst <;> simp [hs, hd, hd2]
      · cases hs2 : mapGet table src <;> simp [hs, hd, hs2]
      · cases hs2 : mapGet table src <;> cases hd2 : mapGet table dst <;>
          simp [hs, hd, hs2, hd2]

theorem knownRate_pos (c : Converter) (code : String) (r : ℚ)
    (hrates : ∀ table, c.rates = some table → ∀ k v, (k, v) ∈ table → 0 < v)
    (h : knownRate c code = some r) : 0 < r := by
  unfold knownRate at h
  split_ifs at h
  · simp at h
    rw [← h]
    exact one_pos
  · cases hr : c.rates with
    | none => simp [hr] at h
    | some table =>
      simp only [hr] at h
      exact hrates table hr code r (mapGet_mem table code r h)

theorem getRate_pos (c : Converter) (src dst : String)
    (hrates : ∀ table, c.rates = some table → ∀ k v, (k, v) ∈ table → 0 < v) :
    0 < c.getRate src dst := by
  rw [getRate_eq]
  split_ifs
  · exact one_pos
  · split
    · next f t hf ht =>
      exact div_pos (knownRate_pos c dst t hrates ht) (knownRate_pos c src f hrates hf)
    · exact one_pos

theorem NewConverter_pos (rates : Option (GoMap String ℚ)) (base hoursEnv daysEnv : String) :
    0 < (NewConverter rates base hoursEnv daysEnv).hoursPerDay ∧
    0 < (NewConverter rates base hoursEnv daysEnv).daysPerMonth := by
  unfold NewConverter
  constructor
  · simp only []
    split_ifs
    · split
      · split_ifs with h
        · exact_mod_cast h
        · decide
      · decide
    · decide
  · simp only []
    split_ifs
    · split
      · split_ifs with h
        · exact_mod_cast h
        · decide
      · decide
    · decide

theorem factor_pos (c : Converter) (p : Period)
    (hh : 0 < c.hoursPerDay) (hd : 0 < c.daysPerMonth) : 0 < factor c p := by
  have h1 : (0 : ℚ) < (c.hoursPerDay : ℚ) := by exact_mod_cast hh
  have h2 : (0 : ℚ) < (c.daysPerMonth : ℚ) := by exact_mod_cast hd
  unfold factor
  split_ifs <;> positivity

theorem cell_Convert_factor (c : Converter) (input : Input) (p : Period) (cur : Currency)
    (hp : p ∈ ValidPeriods) (hc : cur ∈ ValidCurrencies) :
    cell (c.Convert input) p cur =
      some (factor c p * (input.Amount / factor c input.Period)
        * c.getRate input.Currency cur) := by
  rw [cell_Convert c input p cur hp hc, fromHourly_eq_mul_factor, toHourly_eq_div_factor]
  congr 1
  ring

/-! ## Claims on the converter -/

/-- C1 (identity): for every converter with positive `hoursPerDay` and
`daysPerMonth`, every rate table (nil included) and every input whose period is
one of the four periods and whose currency is one of the four currencies, the
cell of `Convert` at the input's own period and currency exists and equals the
input amount. -/
theorem Convert_identity (c : Converter) (input : Input)
    (hh : 0 < c.hoursPerDay) (hd : 0 < c.daysPerMonth)
    (hp : input.Period ∈ ValidPeriods) (hc : input.Currency ∈ ValidCurrencies) :
    cell (c.Convert input) input.Period input.Currency = some input.Amount := by
  rw [cell_Convert c input _ _ hp hc, getRate_self, mul_one, fromHourly_toHourly c _ _ hh hd]

/-- Instance of C1: 5000 per Month in EUR, nil rate table. -/
theorem Convert_identity_witness :
    (0 : Int) < 8 ∧ (0 : Int) < 21 ∧ "Month" ∈ ValidPeriods ∧ "EUR" ∈ ValidCurrencies ∧
    cell (Converter.Convert ⟨8, 21, none, "EUR"⟩ ⟨5000, "Month", "EUR"⟩) "Month" "EUR"
      = some 5000 :=
  ⟨by decide, by decide, by decide, by decide,
    Convert_identity ⟨8, 21, none, "EUR"⟩ ⟨5000, "Month", "EUR"⟩ (by decide) (by decide)
      (by decide) (by decide)⟩

/-- C2 (cell formula): for every converter, every input and every target period
`p` and target currency `cur` of the closed sets, the cell of `Convert` at
`(p, cur)` is `factor p * (amount / factor inputPeriod) * getRate inputCurrency cur`. -/
theorem Convert_cell_formula (c : Converter) (input : Input) (p : Period) (cur : Currency)
    (hp : p ∈ ValidPeriods) (hc : cur ∈ ValidCurrencies) :
    cell (c.Convert input) p cur =
      some (factor c p * (input.Amount / factor c input.Period)
        * c.getRate input.Currency cur) :=
  cell_Convert_factor c input p cur hp hc

/-- Instance of C2: the Year/USD cell of the scenario. -/
theorem Convert_cell_formula_witness :
    "Year" ∈ ValidPeriods ∧ "USD" ∈ ValidCurrencies ∧
    cell (scenarioConverter.Convert scenarioInput) "Year" "USD" =
      some (factor scenarioConverter "Year"
        * (scenarioInput.Amount / factor scenarioConverter scenarioInput.Period)
        * scenarioConverter.getRate scenarioInput.Currency "USD") :=
  ⟨by decide, by decide,
    Convert_cell_formula scenarioConverter scenarioInput "Year" "USD" (by decide) (by decide)⟩

/-- C3 (scenario): with 8 hours a day, 21 days a month (the defaults of
`NewConverter`), base EUR, rates EUR 1.0, USD 1.1, PLN 4.25, GBP 0.85 and input
5000 per Month in EUR, the Hour/EUR cell is 5000/168, which lies in
[29.755, 29.765) and so rounds to 29.76, and the Year/USD cell is
66000 = 5000 * 12 * 1.1. -/
theorem Convert_scenario :
    NewConverter (some scenarioRates) "EUR" "" "" = scenarioConverter ∧
    cell (scenarioConverter.Convert scenarioInput) PeriodHour CurrencyEUR = some (5000 / 168) ∧
    ((29.755 : ℚ) ≤ 5000 / 168 ∧ (5000 / 168 : ℚ) < 29.765) ∧
    cell (scenarioConverter.Convert scenarioInput) PeriodYear CurrencyUSD = some 66000 ∧
    (66000 : ℚ) = 5000 * 12 * 1.1 := by
  refine ⟨by simp [NewConverter, scenarioConverter], ?_, by norm_num, ?_, by norm_num⟩
  · rw [cell_Convert _ _ _ _ (by decide) (by decide)]
    simp [scenarioConverter, scenarioInput, Converter.toHourly, Converter.fromHourly,
      Converter.getRate, PeriodHour, PeriodDay, PeriodMonth, PeriodYear, CurrencyEUR]
    norm_num
  · rw [cell_Convert _ _ _ _ (by decide) (by decide)]
    simp [scenarioConverter, scenarioInput, scenarioRates, Converter.toHourly,
      Converter.fromHourly, Converter.getRate, mapGet, PeriodHour, PeriodDay, PeriodMonth,
      PeriodYear, CurrencyEUR, CurrencyUSD]
    norm_num

/-- C4, as stated, fails: with base EUR and a table that holds only USD, EUR
is no key of the table, yet `getRate EUR USD` is 1.1 and not 1; and with a table
that lists the base EUR at 2, both codes are keys, yet `getRate EUR USD` is 1.1
and not `rate(USD)/rate(EUR) = 1.1/2`. -/
theorem getRate_base_counterexample :
    (baselessConverter.rates = some [("USD", 11 / 10)] ∧
      mapGet ([("USD", 11 / 10)] : GoMap String ℚ) "EUR" = none ∧
      baselessConverter.getRate "EUR" "USD" = 11 / 10 ∧
      baselessConverter.getRate "EUR" "USD" ≠ 1) ∧
    (skewedConverter.rates = some [("EUR", 2), ("USD", 11 / 10)] ∧
      mapGet ([("EUR", 2), ("USD", 11 / 10)] : GoMap String ℚ) "EUR" = some 2 ∧
      mapGet ([("EUR", 2), ("USD", 11 / 10)] : GoMap String ℚ) "USD" = some (11 / 10) ∧
      skewedConverter.getRate "EUR" "USD" = 11 / 10 ∧
      skewedConverter.getRate "EUR" "USD" ≠ (11 / 10) / 2) := by
  have h1 : baselessConverter.getRate "EUR" "USD" = 11 / 10 := by
    simp [baselessConverter, Converter.getRate, mapGet]
  have h2 : skewedConverter.getRate "EUR" "USD" = 11 / 10 := by
    simp [skewedConverter, Converter.getRate, mapGet]
  refine ⟨⟨rfl, by simp [mapGet], h1, ?_⟩, ⟨rfl, by simp [mapGet], by simp [mapGet], h2, ?_⟩⟩
  · rw [h1]; norm_num
  · rw [h2]; norm_num

/-- C4 (cross-rate, amended): `getRate src dst` is 1 when the codes are equal;
otherwise, when both codes are known it is `rate dst / rate src`, and when
either is unknown it is 1, where the base currency is always known with rate 1
(the table is not consulted for it) and any other code is known exactly when it
is a key of the table, with the rate read there.  On a table that maps the base
currency to 1 this is the plain reading of the table. -/
theorem getRate_cross_rate (c : Converter) (src dst : String) :
    (src = dst → c.getRate src dst = 1) ∧
    (src ≠ dst → ∀ f t, knownRate c src = some f → knownRate c dst = some t →
      c.getRate src dst = t / f) ∧
    (src ≠ dst → (knownRate c src = none ∨ knownRate c dst = none) →
      c.getRate src dst = 1) ∧
    (∀ table, c.rates = some table → mapGet table c.baseCurrency = some 1 →
      ∀ code, knownRate c code = mapGet table code) := by
  refine ⟨?_, ?_, ?_, ?_⟩
  · intro h
    rw [h, getRate_self]
  · intro h f t hf ht
    rw [getRate_eq, if_neg h, hf, ht]
  · intro h hnone
    rw [getRate_eq, if_neg h]
    rcases hnone with hn | hn
    · rw [hn]
    · rw [hn]
      cases knownRate c src <;> rfl
  · intro table hr hbase code
    unfold knownRate
    split_ifs with hcode
    · rw [hcode, hbase]
    · rw [hr]

/-- Instance of C4 as amended: PLN to USD in the scenario table. -/
theorem getRate_cross_rate_witness :
    "PLN" ≠ "USD" ∧ knownRate scenarioConverter "PLN" = some (425 / 100) ∧
    knownRate scenarioConverter "USD" = some (11 / 10) ∧
    scenarioConverter.getRate "PLN" "USD" = (11 / 10) / (425 / 100) :=
  have h1 : knownRate scenarioConverter "PLN" = some (425 / 100) := by
    simp [knownRate, scenarioConverter, scenarioRates, mapGet]
  have h2 : knownRate scenarioConverter "USD" = some (11 / 10) := by
    simp [knownRate, scenarioConverter, scenarioRates, mapGet]
  ⟨by decide, h1, h2,
    (getRate_cross_rate scenarioConverter "PLN" "USD").2.1 (by decide) _ _ h1 h2⟩

/-- C5 (currency round-trip, amended): over exact rational arithmetic, for
every converter and every two codes `a` and `b` that the rate table holds with
non-zero rates, `getRate a b * getRate b a = 1`. -/
theorem getRate_round_trip (c : Converter) (table : GoMap String ℚ) (a b : String)
    (ra rb : ℚ) (ht : c.rates = some table)
    (ha : mapGet table a = some ra) (hb : mapGet table b = some rb)
    (hra : ra ≠ 0) (hrb : rb ≠ 0) :
    c.getRate a b * c.getRate b a = 1 := by
  have hka : ∃ fa, knownRate c a = some fa ∧ fa ≠ 0 := by
    unfold knownRate
    split_ifs
    · exact ⟨1, rfl, one_ne_zero⟩
    · exact ⟨ra, by rw [ht]; exact ha, hra⟩
  have hkb : ∃ fb, knownRate c b = some fb ∧ fb ≠ 0 := by
    unfold knownRate
    split_ifs
    · exact ⟨1, rfl, one_ne_zero⟩
    · exact ⟨rb, by rw [ht]; exact hb, hrb⟩
  obtain ⟨fa, hfa, hfa0⟩ := hka
  obtain ⟨fb, hfb, hfb0⟩ := hkb
  by_cases hab : a = b
  · rw [hab, getRate_self, mul_one]
  · rw [getRate_eq, getRate_eq, if_neg hab, if_neg (Ne.symm hab), hfa, hfb]
    field_simp

/-- Instance of C5: PLN and USD in the scenario table. -/
theorem getRate_round_trip_witness :
    scenarioConverter.rates = some scenarioRates ∧
    mapGet scenarioRates "PLN" = some (425 / 100) ∧
    mapGet scenarioRates "USD" = some (11 / 10) ∧
    scenarioConverter.getRate "PLN" "USD" * scenarioConverter.getRate "USD" "PLN" = 1 :=
  have h1 : mapGet scenarioRates "PLN" = some (425 / 100) := by
    simp [scenarioRates, mapGet]
  have h2 : mapGet scenarioRates "USD" = some (11 / 10) := by
    simp [scenarioRates, mapGet]
  ⟨rfl, h1, h2,
    getRate_round_trip scenarioConverter scenarioRates "PLN" "USD" _ _ rfl h1 h2
      (by norm_num) (by norm_num)⟩

/-- C6 (period round-trip, amended): over exact rational arithmetic, for every
amount `x`, every period `p` and every positive `hoursPerDay` and
`daysPerMonth`, `toHourly (fromHourly x p) p = x` and
`fromHourly (toHourly x p) p = x`; in particular an hourly amount taken to Day
and back to Hour is unchanged. -/
theorem period_round_trip (c : Converter) (x : ℚ) (p : Period)
    (hh : 0 < c.hoursPerDay) (hd : 0 < c.daysPerMonth) :
    c.toHourly (c.fromHourly x p) p = x ∧ c.fromHourly (c.toHourly x p) p = x ∧
    c.toHourly (c.fromHourly x PeriodDay) PeriodDay = x :=
  ⟨toHourly_fromHourly c x p hh hd, fromHourly_toHourly c x p hh hd,
    toHourly_fromHourly c x PeriodDay hh hd⟩

/-- Instance of C6: 20 per hour, through Year and through Day. -/
theorem period_round_trip_witness :
    (0 : Int) < scenarioConverter.hoursPerDay ∧ (0 : Int) < scenarioConverter.daysPerMonth ∧
    scenarioConverter.toHourly (scenarioConverter.fromHourly 20 "Year") "Year" = 20 ∧
    scenarioConverter.fromHourly (scenarioConverter.toHourly 20 "Year") "Year" = 20 ∧
    scenarioConverter.toHourly (scenarioConverter.fromHourly 20 PeriodDay) PeriodDay = 20 :=
  ⟨by decide, by decide, period_round_trip scenarioConverter 20 "Year" (by decide) (by decide)⟩

/-- C7 (dense grid): for every converter (any rate table, nil and empty
included) and every input, the keys of the result are exactly the four periods
and the keys under each are exactly the four currencies; a cell exists exactly
at the pairs of a valid period and a valid currency, and there are 16 cells. -/
theorem Convert_dense_grid (c : Converter) (input : Input) :
    (c.Convert input).map (fun row => (row.1, mapKeys row.2)) =
      ValidPeriods.map (fun p => (p, ValidCurrencies)) ∧
    ValidPeriods = ["Hour", "Day", "Month", "Year"] ∧
    ValidCurrencies = ["PLN", "EUR", "USD", "GBP"] ∧
    (∀ p cur, (cell (c.Convert input) p cur).isSome = true ↔
      (p ∈ ValidPeriods ∧ cur ∈ ValidCurrencies)) ∧
    ((c.Convert input).map (fun row => row.2.length)).sum = 16 := by
  refine ⟨?_, rfl, rfl, ?_, ?_⟩
  · rw [Convert_unfold]
    simp [mapKeys, ValidPeriods, ValidCurrencies]
  · intro p cur
    constructor
    · intro h
      rw [Convert_unfold] at h
      simp only [ValidPeriods, ValidCurrencies, PeriodHour, PeriodDay, PeriodMonth, PeriodYear,
        CurrencyPLN, CurrencyEUR, CurrencyUSD, CurrencyGBP, List.map_cons, List.map_nil,
        cell, mapGet] at h
      simp only [ValidPeriods, ValidCurrencies, PeriodHour, PeriodDay, PeriodMonth, PeriodYear,
        CurrencyPLN, CurrencyEUR, CurrencyUSD, CurrencyGBP, List.mem_cons, List.mem_singleton,
        List.not_mem_nil, or_false]
      split_ifs at h <;> simp_all [mapGet] <;> split_ifs at h <;> simp_all
    · rintro ⟨hp, hc⟩
      rw [cell_Convert c input p cur hp hc]
      rfl
  · rw [Convert_unfold]
    simp [ValidPeriods, ValidCurrencies]

/-- C8 (non-negativity, amended): over exact rational arithmetic, for every
converter with positive `hoursPerDay` and `daysPerMonth`, every rate table
whose rates are all positive and every input with amount > 0, each of the 16
cells of `Convert` exists and is > 0. -/
theorem Convert_cells_positive (c : Converter) (input : Input) (p : Period) (cur : Currency)
    (hh : 0 < c.hoursPerDay) (hd : 0 < c.daysPerMonth) (hamt : 0 < input.Amount)
    (hrates : ∀ table, c.rates = some table → ∀ k v, (k, v) ∈ table → 0 < v)
    (hp : p ∈ ValidPeriods) (hc : cur ∈ ValidCurrencies) :
    ∃ v, cell (c.Convert input) p cur = some v ∧ 0 < v := by
  refine ⟨_, cell_Convert_factor c input p cur hp hc, ?_⟩
  have hr : 0 < c.getRate input.Currency cur := getRate_pos c _ _ hrates
  have hf1 := factor_pos c p hh hd
  have hf2 := factor_pos c input.Period hh hd
  positivity

/-- Instance of C8: the Year/USD cell of the scenario. -/
theorem Convert_cells_positive_witness :
    (0 : Int) < scenarioConverter.hoursPerDay ∧ (0 : Int) < scenarioConverter.daysPerMonth ∧
    (0 : ℚ) < scenarioInput.Amount ∧ "Year" ∈ ValidPeriods ∧ "USD" ∈ ValidCurrencies ∧
    ∃ v, cell (scenarioConverter.Convert scenarioInput) "Year" "USD" = some v ∧ 0 < v :=
  have hamt : (0 : ℚ) < scenarioInput.Amount := by
    simp [scenarioInput]
  have hrates : ∀ table, scenarioConverter.rates = some table →
      ∀ (k : String) (v : ℚ), (k, v) ∈ table → 0 < v := by
    intro table ht k v hkv
    simp only [scenarioConverter, Option.some.injEq] at ht
    subst ht
    simp only [scenarioRates, List.mem_cons, Prod.mk.injEq, List.mem_singleton,
      List.not_mem_nil, or_false] at hkv
    rcases hkv with ⟨-, rfl⟩ | ⟨-, rfl⟩ | ⟨-, rfl⟩ | ⟨-, rfl⟩ <;> norm_num
  ⟨by decide, by decide, hamt, by decide, by decide,
    Convert_cells_positive scenarioConverter scenarioInput "Year" "USD"
      (by decide) (by decide) hamt hrates (by decide) (by decide)⟩

/-! ## The exchange-rate pipeline -/

theorem Get_snapshot (c : Cache) (baseCurrency : String) (w : World) (data : CacheData)
    (hfile : w.files (c.cacheFile baseCurrency) = .snapshot data) :
    c.Get baseCurrency w =
      (if w.clock w.reads > data.ExpiresAt then .ok none else .ok (some data),
        { w with
          reads := w.reads + 1
          trace := w.trace ++ [.readFile (c.cacheFile baseCurrency)] }) := by
  unfold Cache.Get
  simp only [World.logged, World.now, hfile]
  split_ifs <;> rfl

theorem fetchFromPrimary_error (api : ExchangeRateAPI) (baseCurrency : String)
    (w w' : World) (e : GoError) (hnet : w'.primary = w.primary)
    (h : (api.fetchFromPrimary baseCurrency w).1 = .error e) :
    api.fetchFromPrimary baseCurrency w' =
      (.error e, w'.logged
        (.httpGet ("https://api.exchangerate-api.com/v4/latest/" ++ baseCurrency))) := by
  unfold ExchangeRateAPI.fetchFromPrimary at h ⊢
  simp only [World.logged, hnet] at h ⊢
  cases hr : w.primary ("https://api.exchangerate-api.com/v4/latest/" ++ baseCurrency) with
  | transportError err =>
    simp only [hr] at h ⊢
    simp only [Except.error.injEq] at h
    rw [h]
  | response statusCode body =>
    simp only [hr] at h ⊢
    split_ifs at h ⊢ with hs
    · simp only [Except.error.injEq] at h
      rw [h]
    · cases body with
      | unreadable err =>
        simp only [Except.error.injEq] at h ⊢
        rw [h]
      | undecodable err =>
        simp only [Except.error.injEq] at h ⊢
        rw [h]
      | decoded v => simp [World.now] at h

theorem fetchFromFallback_error (api : ExchangeRateAPI) (baseCurrency : String)
    (w w' : World) (e : GoError) (hnet : w'.fallback = w.fallback)
    (h : (api.fetchFromFallback baseCurrency w).1 = .error e) :
    api.fetchFromFallback baseCurrency w' =
      (.error e, w'.logged
        (.httpGet ("https://api.exchangerate.host/latest?base=" ++ baseCurrency))) := by
  unfold ExchangeRateAPI.fetchFromFallback at h ⊢
  simp only [World.logged, hnet] at h ⊢
  cases hr : w.fallback ("https://api.exchangerate.host/latest?base=" ++ baseCurrency) with
  | transportError err =>
    simp only [hr] at h ⊢
    simp only [Except.error.injEq] at h
    rw [h]
  | response statusCode body =>
    simp only [hr] at h ⊢
    split_ifs at h ⊢ with hs
    · simp only [Except.error.injEq] at h
      rw [h]
    · cases body with
      | unreadable err =>
        simp only [Except.error.injEq] at h ⊢
        rw [h]
      | undecodable err =>
        simp only [Except.error.injEq] at h ⊢
        rw [h]
      | decoded v =>
        simp only at h ⊢
        split_ifs at h ⊢ with hv
        · simp only [Except.error.injEq] at h
          rw [h]

/-- C9 (stale-cache fallback) does not hold of the code: when the cache file
holds a snapshot that is expired at both cache reads and both fetches fail,
`GetRates` returns the error that wraps the fallback's failure, after one cache
read, one request to each source and a second cache read; no cached table is
returned and no source is annotated. -/
theorem GetRates_expired_cache_fails (api : ExchangeRateAPI) (baseCurrency : String)
    (w : World) (data : CacheData) (e1 e2 : GoError)
    (hfile : w.files (api.cache.cacheFile baseCurrency) = .snapshot data)
    (hexp1 : data.ExpiresAt < w.clock w.reads)
    (hexp2 : data.ExpiresAt < w.clock (w.reads + 1))
    (hprim : (api.fetchFromPrimary baseCurrency w).1 = .error e1)
    (hfall : (api.fetchFromFallback baseCurrency w).1 = .error e2) :
    api.GetRates baseCurrency w =
      (.error (.wrapped "failed to fetch exchange rates" e2),
        { w with
          reads := w.reads + 2
          trace := w.trace ++
            [.readFile (api.cache.cacheFile baseCurrency),
             .httpGet ("https://api.exchangerate-api.com/v4/latest/" ++ baseCurrency),
             .httpGet ("https://api.exchangerate.host/latest?base=" ++ baseCurrency),
             .readFile (api.cache.cacheFile baseCurrency)] }) := by
  unfold ExchangeRateAPI.GetRates
  rw [Get_snapshot api.cache baseCurrency w data hfile, if_pos hexp1]
  simp only []
  rw [fetchFromPrimary_error api baseCurrency w _ e1 ?_ hprim]
  simp only []
  rw [fetchFromFallback_error api baseCurrency w _ e2 ?_ hfall]
  simp only []
  rw [Get_snapshot api.cache baseCurrency _ data (by simpa [World.logged] using hfile)]
  · simp [World.logged, hexp2]
  · rfl
  · rfl

/-- C10 (fresh cache short-circuit): when the cache file holds a snapshot that
is not expired at the time of the read, `GetRates` returns the snapshot's rate
table with its source, timestamp and expiry unaltered, whatever the two
sources would answer; the only effect is the one cache read (no request, no
write, the files unchanged). -/
theorem GetRates_fresh_cache (api : ExchangeRateAPI) (baseCurrency : String)
    (w : World) (data : CacheData)
    (hfile : w.files (api.cache.cacheFile baseCurrency) = .snapshot data)
    (hfresh : w.clock w.reads ≤ data.ExpiresAt) :
    api.GetRates baseCurrency w =
      (.ok (data.Rates,
        { Source := data.Source, Timestamp := data.Timestamp, ExpiresAt := data.ExpiresAt }),
        { w with
          reads := w.reads + 1
          trace := w.trace ++ [.readFile (api.cache.cacheFile baseCurrency)] }) := by
  unfold ExchangeRateAPI.GetRates
  rw [Get_snapshot api.cache baseCurrency w data hfile, if_neg (not_lt.mpr hfresh)]

/-- Instance of C9: snapshot expired at hour 24, clock at hour 25, both sources down. -/
theorem GetRates_expired_cache_fails_witness :
    (sampleAPI.GetRates "EUR" (offlineWorld (25 * hour))).1 =
      .error (.wrapped "failed to fetch exchange rates"
        (.message "API returned status 503")) :=
  congrArg Prod.fst
    (GetRates_expired_cache_fails sampleAPI "EUR" (offlineWorld (25 * hour)) sampleSnapshot
      (.message "dial tcp: no route to host") (.message "API returned status 503")
      (by rfl) (by decide) (by decide) (by rfl) (by rfl))

/-- Instance of C10: snapshot expiring at hour 24, clock at hour 1, both sources down. -/
theorem GetRates_fresh_cache_witness :
    (sampleAPI.GetRates "EUR" (offlineWorld hour)).1 =
      .ok (some scenarioRates,
        { Source := "exchangerate-api.com", Timestamp := 0, ExpiresAt := 24 * hour }) :=
  congrArg Prod.fst
    (GetRates_fresh_cache sampleAPI "EUR" (offlineWorld hour) sampleSnapshot
      (by rfl) (by decide))

/-! ## Claims on the fetch order, the cache and the payloads -/

theorem Get_frame (c : Cache) (baseCurrency : String) (w : World) :
    ∃ r, (c.Get baseCurrency w).2 =
      { w with reads := r, trace := w.trace ++ [.readFile (c.cacheFile baseCurrency)] } := by
  unfold Cache.Get
  simp only [World.logged, World.now]
  cases w.files (c.cacheFile baseCurrency) with
  | notExist => exact ⟨w.reads, rfl⟩
  | readError err => exact ⟨w.reads, rfl⟩
  | malformed err => exact ⟨w.reads, rfl⟩
  | snapshot data =>
    simp only []
    split_ifs
    · exact ⟨w.reads + 1, rfl⟩
    · exact ⟨w.reads + 1, rfl⟩

theorem fetchFromPrimary_ok (api : ExchangeRateAPI) (baseCurrency : String)
    (w w' : World) (rates : Option (GoMap String ℚ)) (info : RateInfo)
    (hnet : w'.primary = w.primary)
    (h : (api.fetchFromPrimary baseCurrency w).1 = .ok (rates, info)) :
    api.fetchFromPrimary baseCurrency w' =
      (.ok (rates,
        { Source := info.Source, Timestamp := w'.clock w'.reads,
          ExpiresAt := w'.clock (w'.reads + 1) + 24 * hour }),
        { w' with
          reads := w'.reads + 2
          trace := w'.trace ++
            [.httpGet ("https://api.exchangerate-api.com/v4/latest/" ++ baseCurrency)] }) := by
  unfold ExchangeRateAPI.fetchFromPrimary at h ⊢
  simp only [World.logged, hnet] at h ⊢
  cases hr : w.primary ("https://api.exchangerate-api.com/v4/latest/" ++ baseCurrency) with
  | transportError err => simp [hr] at h
  | response statusCode body =>
    simp only [hr] at h ⊢
    split_ifs at h ⊢ with hs
    cases body with
    | unreadable err => simp at h
    | undecodable err => simp at h
    | decoded v =>
      simp only [World.now, Except.ok.injEq, Prod.mk.injEq] at h ⊢
      obtain ⟨h1, h2⟩ := h
      subst h1
      subst h2
      simp

theorem fetchFromFallback_ok (api : ExchangeRateAPI) (baseCurrency : String)
    (w w' : World) (rates : Option (GoMap String ℚ)) (info : RateInfo)
    (hnet : w'.fallback = w.fallback)
    (h : (api.fetchFromFallback baseCurrency w).1 = .ok (rates, info)) :
    api.fetchFromFallback baseCurrency w' =
      (.ok (rates,
        { Source := info.Source, Timestamp := w'.clock w'.reads,
          ExpiresAt := w'.clock (w'.reads + 1) + 24 * hour }),
        { w' with
          reads := w'.reads + 2
          trace := w'.trace ++
            [.httpGet ("https://api.exchangerate.host/latest?base=" ++ baseCurrency)] }) := by
  unfold ExchangeRateAPI.fetchFromFallback at h ⊢
  simp only [World.logged, hnet] at h ⊢
  cases hr : w.fallback ("https://api.exchangerate.host/latest?base=" ++ baseCurrency) with
  | transportError err => simp [hr] at h
  | response statusCode body =>
    simp only [hr] at h ⊢
    split_ifs at h ⊢ with hs
    cases body with
    | unreadable err => simp at h
    | undecodable err => simp at h
    | decoded v =>
      simp only at h ⊢
      split_ifs at h ⊢ with hv
      simp only [World.now, Except.ok.injEq, Prod.mk.injEq] at h ⊢
      obtain ⟨h1, h2⟩ := h
      subst h1
      subst h2
      simp

theorem GetRates_miss (api : ExchangeRateAPI) (baseCurrency : String) (w : World)
    (hmiss : ∀ d, (api.cache.Get baseCurrency w).1 ≠ .ok (some d)) :
    api.GetRates baseCurrency w =
      match api.fetchFromPrimary baseCurrency (api.cache.Get baseCurrency w).2 with
      | (.ok (rates, info), w) =>
        (.ok (rates, info), (api.cache.Set baseCurrency rates info.Source w).2)
      | (.error _, w) =>
        match api.fetchFromFallback baseCurrency w with
        | (.ok (rates, info), w) =>
          (.ok (rates, info), (api.cache.Set baseCurrency rates info.Source w).2)
        | (.error err, w) =>
          match api.cache.Get baseCurrency w with
          | (.ok (some cached), w) =>
            (.ok (cached.Rates,
              { Source := cached.Source ++ " (expired)", Timestamp := cached.Timestamp,
                ExpiresAt := cached.ExpiresAt }), w)
          | (_, w) => (.error (.wrapped "failed to fetch exchange rates" err), w) := by
  unfold ExchangeRateAPI.GetRates
  rcases hg : api.cache.Get baseCurrency w with ⟨r, w1⟩
  cases r with
  | error e => rfl
  | ok o =>
    cases o with
    | none => rfl
    | some d => exact absurd (by rw [hg]) (hmiss d)


theorem primaryURL_ne_fallbackURL (baseCurrency : String) :
    "https://api.exchangerate-api.com/v4/latest/" ++ baseCurrency ≠
      "https://api.exchangerate.host/latest?base=" ++ baseCurrency := by
  intro h
  have h2 := congrArg String.data h
  simp [String.data_append] at h2

theorem Set_frame (c : Cache) (baseCurrency : String) (rates : Option (GoMap String ℚ))
    (source : String) (w : World) :
    (c.Set baseCurrency rates source w).2.trace =
        w.trace ++ [.writeFile (c.cacheFile baseCurrency)
          ⟨baseCurrency, rates, w.clock w.reads, source, w.clock w.reads + c.ttl⟩] ∧
      (w.writeError (c.cacheFile baseCurrency) = none →
        (c.Set baseCurrency rates source w).1 = none ∧
        (c.Set baseCurrency rates source w).2.files (c.cacheFile baseCurrency) =
          .snapshot ⟨baseCurrency, rates, w.clock w.reads, source, w.clock w.reads + c.ttl⟩) ∧
      (c.Set baseCurrency rates source w).2.clock = w.clock ∧
      (c.Set baseCurrency rates source w).2.reads = w.reads + 1 := by
  unfold Cache.Set
  simp only [World.now, World.logged]
  cases hwe : w.writeError (c.cacheFile baseCurrency) with
  | none => simp
  | some err => simp

/-- C12 (primary precedence): when the cache read yields no snapshot and the
primary fetch succeeds, `GetRates` returns the primary's rate table and source
without error, after one cache read, one request to the primary and one cache
write of a snapshot that carries this base currency, table and source; no
request goes to the fallback; when the write does not fail the cache file
holds that snapshot. -/
theorem GetRates_primary_first (api : ExchangeRateAPI) (baseCurrency : String) (w : World)
    (rates : Option (GoMap String ℚ)) (info : RateInfo)
    (hmiss : ∀ d, (api.cache.Get baseCurrency w).1 ≠ .ok (some d))
    (hprim : (api.fetchFromPrimary baseCurrency w).1 = .ok (rates, info)) :
    ∃ info' w' data,
      api.GetRates baseCurrency w = (.ok (rates, info'), w') ∧
      info'.Source = info.Source ∧
      data.Base = baseCurrency ∧ data.Rates = rates ∧ data.Source = info.Source ∧
      w'.trace = w.trace ++
        [.readFile (api.cache.cacheFile baseCurrency),
         .httpGet ("https://api.exchangerate-api.com/v4/latest/" ++ baseCurrency),
         .writeFile (api.cache.cacheFile baseCurrency) data] ∧
      (w.writeError (api.cache.cacheFile baseCurrency) = none →
        w'.files (api.cache.cacheFile baseCurrency) = .snapshot data) ∧
      Effect.httpGet ("https://api.exchangerate.host/latest?base=" ++ baseCurrency) ∉
        [Effect.readFile (api.cache.cacheFile baseCurrency),
         .httpGet ("https://api.exchangerate-api.com/v4/latest/" ++ baseCurrency),
         .writeFile (api.cache.cacheFile baseCurrency) data] := by
  obtain ⟨r, hw1⟩ := Get_frame api.cache baseCurrency w
  rw [GetRates_miss api baseCurrency w hmiss, hw1,
    fetchFromPrimary_ok api baseCurrency w _ rates info ?_ hprim]
  simp only []
  have hS := Set_frame api.cache baseCurrency rates info.Source
    { w with
      reads := r + 2
      trace := w.trace ++ [.readFile (api.cache.cacheFile baseCurrency)] ++
        [.httpGet ("https://api.exchangerate-api.com/v4/latest/" ++ baseCurrency)] }
  obtain ⟨hS1, hS2, -, -⟩ := hS
  refine ⟨_, _, ⟨baseCurrency, rates, w.clock (r + 2), info.Source,
    w.clock (r + 2) + api.cache.ttl⟩, rfl, rfl, rfl, rfl, rfl, ?_, ?_, ?_⟩
  · rw [hS1]
    simp
  · intro hwe
    exact (hS2 hwe).2
  · have := primaryURL_ne_fallbackURL baseCurrency
    simp [Ne.symm this]
  · rfl


theorem Get_no_snapshot (c : Cache) (baseCurrency : String) (w : World)
    (hfile : ∀ d, w.files (c.cacheFile baseCurrency) ≠ .snapshot d) :
    (∀ d, (c.Get baseCurrency w).1 ≠ .ok (some d)) ∧
    (c.Get baseCurrency w).2 = w.logged (.readFile (c.cacheFile baseCurrency)) := by
  unfold Cache.Get
  simp only [World.logged]
  cases hf : w.files (c.cacheFile baseCurrency) with
  | notExist => simp
  | readError err => simp
  | malformed err => simp
  | snapshot data => exact absurd hf (hfile data)

theorem fetchFromPrimary_cases (api : ExchangeRateAPI) (baseCurrency : String) (w : World) :
    (∃ e, (api.fetchFromPrimary baseCurrency w).1 = .error e) ∨
    (∃ rates info, (api.fetchFromPrimary baseCurrency w).1 = .ok (rates, info)) := by
  cases h : (api.fetchFromPrimary baseCurrency w).1 with
  | error e => exact Or.inl ⟨e, rfl⟩
  | ok v => exact Or.inr ⟨v.1, v.2, rfl⟩

theorem fetchFromFallback_cases (api : ExchangeRateAPI) (baseCurrency : String) (w : World) :
    (∃ e, (api.fetchFromFallback baseCurrency w).1 = .error e) ∨
    (∃ rates info, (api.fetchFromFallback baseCurrency w).1 = .ok (rates, info)) := by
  cases h : (api.fetchFromFallback baseCurrency w).1 with
  | error e => exact Or.inl ⟨e, rfl⟩
  | ok v => exact Or.inr ⟨v.1, v.2, rfl⟩

/-- C11 (fallback chain): when the cache read yields no snapshot, the primary
fetch fails and the fallback fetch succeeds, `GetRates` returns the fallback's
rate table and source without error, after one cache read, one request to each
source and one cache write of a snapshot that carries this base currency, table
and source; when the write does not fail the cache file holds that snapshot. -/
theorem GetRates_fallback_chain (api : ExchangeRateAPI) (baseCurrency : String) (w : World)
    (rates : Option (GoMap String ℚ)) (info : RateInfo) (e1 : GoError)
    (hmiss : ∀ d, (api.cache.Get baseCurrency w).1 ≠ .ok (some d))
    (hprim : (api.fetchFromPrimary baseCurrency w).1 = .error e1)
    (hfall : (api.fetchFromFallback baseCurrency w).1 = .ok (rates, info)) :
    ∃ info' w' data,
      api.GetRates baseCurrency w = (.ok (rates, info'), w') ∧
      info'.Source = info.Source ∧
      data.Base = baseCurrency ∧ data.Rates = rates ∧ data.Source = info.Source ∧
      w'.trace = w.trace ++
        [.readFile (api.cache.cacheFile baseCurrency),
         .httpGet ("https://api.exchangerate-api.com/v4/latest/" ++ baseCurrency),
         .httpGet ("https://api.exchangerate.host/latest?base=" ++ baseCurrency),
         .writeFile (api.cache.cacheFile baseCurrency) data] ∧
      (w.writeError (api.cache.cacheFile baseCurrency) = none →
        w'.files (api.cache.cacheFile baseCurrency) = .snapshot data) := by
  obtain ⟨r, hw1⟩ := Get_frame api.cache baseCurrency w
  rw [GetRates_miss api baseCurrency w hmiss, hw1,
    fetchFromPrimary_error api baseCurrency w _ e1 ?_ hprim]
  simp only [World.logged]
  rw [fetchFromFallback_ok api baseCurrency w _ rates info ?_ hfall]
  simp only []
  have hS := Set_frame api.cache baseCurrency rates info.Source
    { w with
      reads := r + 2
      trace := w.trace ++ [.readFile (api.cache.cacheFile baseCurrency)] ++
        [.httpGet ("https://api.exchangerate-api.com/v4/latest/" ++ baseCurrency)] ++
        [.httpGet ("https://api.exchangerate.host/latest?base=" ++ baseCurrency)] }
  obtain ⟨hS1, hS2, -, -⟩ := hS
  refine ⟨_, _, ⟨baseCurrency, rates, w.clock (r + 2), info.Source,
    w.clock (r + 2) + api.cache.ttl⟩, rfl, rfl, rfl, rfl, rfl, ?_, ?_⟩
  · rw [hS1]
    simp
  · intro hwe
    exact (hS2 hwe).2
  · rfl
  · rfl

theorem GetRates_no_snapshot (api : ExchangeRateAPI) (baseCurrency : String) (w : World)
    (hfile : ∀ d, w.files (api.cache.cacheFile baseCurrency) ≠ .snapshot d) :
    (∀ rates info, (api.fetchFromPrimary baseCurrency w).1 = .ok (rates, info) →
      (api.GetRates baseCurrency w).1 =
        .ok (rates, ⟨info.Source, w.clock w.reads, w.clock (w.reads + 1) + 24 * hour⟩)) ∧
    (∀ e1 rates info, (api.fetchFromPrimary baseCurrency w).1 = .error e1 →
      (api.fetchFromFallback baseCurrency w).1 = .ok (rates, info) →
      (api.GetRates baseCurrency w).1 =
        .ok (rates, ⟨info.Source, w.clock w.reads, w.clock (w.reads + 1) + 24 * hour⟩)) ∧
    (∀ e1 e2, (api.fetchFromPrimary baseCurrency w).1 = .error e1 →
      (api.fetchFromFallback baseCurrency w).1 = .error e2 →
      api.GetRates baseCurrency w =
        (.error (.wrapped "failed to fetch exchange rates" e2),
          { w with
            trace := w.trace ++
              [.readFile (api.cache.cacheFile baseCurrency),
               .httpGet ("https://api.exchangerate-api.com/v4/latest/" ++ baseCurrency),
               .httpGet ("https://api.exchangerate.host/latest?base=" ++ baseCurrency),
               .readFile (api.cache.cacheFile baseCurrency)] })) := by
  obtain ⟨hmiss, hw1⟩ := Get_no_snapshot api.cache baseCurrency w hfile
  refine ⟨?_, ?_, ?_⟩
  · intro rates info hprim
    rw [GetRates_miss api baseCurrency w hmiss, hw1,
      fetchFromPrimary_ok api baseCurrency w _ rates info ?_ hprim]
    · rfl
    · rfl
  · intro e1 rates info hprim hfall
    rw [GetRates_miss api baseCurrency w hmiss, hw1,
      fetchFromPrimary_error api baseCurrency w _ e1 ?_ hprim]
    simp only []
    rw [fetchFromFallback_ok api baseCurrency w _ rates info ?_ hfall]
    · rfl
    · rfl
    · rfl
  · intro e1 e2 hprim hfall
    rw [GetRates_miss api baseCurrency w hmiss, hw1,
      fetchFromPrimary_error api baseCurrency w _ e1 ?_ hprim]
    simp only []
    rw [fetchFromFallback_error api baseCurrency w _ e2 ?_ hfall]
    simp only []
    · obtain ⟨hmiss2, hw2⟩ := Get_no_snapshot api.cache baseCurrency
        (((w.logged (.readFile (api.cache.cacheFile baseCurrency))).logged
          (.httpGet ("https://api.exchangerate-api.com/v4/latest/" ++ baseCurrency))).logged
          (.httpGet ("https://api.exchangerate.host/latest?base=" ++ baseCurrency))) hfile
      rcases hg : api.cache.Get baseCurrency
        (((w.logged (.readFile (api.cache.cacheFile baseCurrency))).logged
          (.httpGet ("https://api.exchangerate-api.com/v4/latest/" ++ baseCurrency))).logged
          (.httpGet ("https://api.exchangerate.host/latest?base=" ++ baseCurrency)))
        with ⟨r, w4⟩
      rw [hg] at hmiss2 hw2
      simp only at hw2
      subst hw2
      cases r with
      | error e => simp [World.logged]
      | ok o =>
        cases o with
        | none => simp [World.logged]
        | some d => exact absurd rfl (hmiss2 d)
    · rfl
    · rfl

/-- C13 (exhaustion): when the cache file holds no snapshot (it is absent,
unreadable or malformed) and both fetches fail, `GetRates` returns an error and
no rates, and the error wraps the fallback's failure `e2`, not the primary's
`e1` and not a cache error. -/
theorem GetRates_exhausted (api : ExchangeRateAPI) (baseCurrency : String) (w : World)
    (e1 e2 : GoError)
    (hfile : ∀ d, w.files (api.cache.cacheFile baseCurrency) ≠ .snapshot d)
    (hprim : (api.fetchFromPrimary baseCurrency w).1 = .error e1)
    (hfall : (api.fetchFromFallback baseCurrency w).1 = .error e2) :
    (api.GetRates baseCurrency w).1 =
      .error (.wrapped "failed to fetch exchange rates" e2) := by
  rw [(GetRates_no_snapshot api baseCurrency w hfile).2.2 e1 e2 hprim hfall]

/-- Instance of C13: no cache file, primary unreachable, fallback answering 503. -/
theorem GetRates_exhausted_witness :
    (sampleAPI.GetRates "EUR"
      (sampleWorld .notExist 0 (.transportError (.message "dial tcp: no route to host"))
        (.response 503 (.unreadable (.message "unexpected EOF"))))).1 =
      .error (.wrapped "failed to fetch exchange rates"
        (.message "API returned status 503")) :=
  GetRates_exhausted sampleAPI "EUR" _ (.message "dial tcp: no route to host")
    (.message "API returned status 503")
    (by intro d h; simp [sampleWorld, sampleAPI, Cache.cacheFile] at h) (by rfl) (by rfl)

theorem Get_error_no_snapshot (c : Cache) (baseCurrency : String) (w : World) (e : GoError)
    (h : (c.Get baseCurrency w).1 = .error e) :
    ∀ d, w.files (c.cacheFile baseCurrency) ≠ .snapshot d := by
  intro d hd
  rw [Get_snapshot c baseCurrency w d hd] at h
  simp only at h
  split_ifs at h

/-- C14 (cache errors degrade to a miss): when `Cache.Get` fails with a read or
parse error, `GetRates` returns exactly the rates, rate info and error it
returns in the same environment with the cache file absent, whatever the two
sources answer; and when it returns an error, both fetches have failed and the
error wraps the fallback's failure, never the cache error. -/
theorem GetRates_cache_error_is_miss (api : ExchangeRateAPI) (baseCurrency : String)
    (w : World) (e : GoError) (hget : (api.cache.Get baseCurrency w).1 = .error e) :
    (api.GetRates baseCurrency w).1 =
      (api.GetRates baseCurrency
        { w with files := fun path =>
            if path = api.cache.cacheFile baseCurrency then .notExist else w.files path }).1 ∧
    (∀ err, (api.GetRates baseCurrency w).1 = .error err →
      ∃ e1 e2, (api.fetchFromPrimary baseCurrency w).1 = .error e1 ∧
        (api.fetchFromFallback baseCurrency w).1 = .error e2 ∧
        err = .wrapped "failed to fetch exchange rates" e2) := by
  have hfile := Get_error_no_snapshot api.cache baseCurrency w e hget
  have hfile0 : ∀ d, (fun path =>
      if path = api.cache.cacheFile baseCurrency then FileState.notExist else w.files path)
      (api.cache.cacheFile baseCurrency) ≠ .snapshot d := by
    intro d
    simp
  obtain ⟨hA, hB, hC⟩ := GetRates_no_snapshot api baseCurrency w hfile
  obtain ⟨hA0, hB0, hC0⟩ := GetRates_no_snapshot api baseCurrency
    { w with files := fun path =>
        if path = api.cache.cacheFile baseCurrency then .notExist else w.files path } hfile0
  rcases fetchFromPrimary_cases api baseCurrency w with ⟨e1, hp⟩ | ⟨rates, info, hp⟩
  · have hp0 := congrArg Prod.fst (fetchFromPrimary_error api baseCurrency w
      { w with files := fun path =>
          if path = api.cache.cacheFile baseCurrency then .notExist else w.files path }
      e1 rfl hp)
    rcases fetchFromFallback_cases api baseCurrency w with ⟨e2, hf⟩ | ⟨rates, info, hf⟩
    · have hf0 := congrArg Prod.fst (fetchFromFallback_error api baseCurrency w
        { w with files := fun path =>
            if path = api.cache.cacheFile baseCurrency then .notExist else w.files path }
        e2 rfl hf)
      rw [hC e1 e2 hp hf, hC0 e1 e2 hp0 hf0]
      refine ⟨rfl, ?_⟩
      intro err herr
      simp only [Except.error.injEq] at herr
      exact ⟨e1, e2, hp, hf, herr.symm⟩
    · have hf0 := congrArg Prod.fst (fetchFromFallback_ok api baseCurrency w
        { w with files := fun path =>
            if path = api.cache.cacheFile baseCurrency then .notExist else w.files path }
        rates info rfl hf)
      rw [hB e1 rates info hp hf, hB0 e1 rates _ hp0 hf0]
      refine ⟨rfl, ?_⟩
      intro err herr
      simp at herr
  · have hp0 := congrArg Prod.fst (fetchFromPrimary_ok api baseCurrency w
      { w with files := fun path =>
          if path = api.cache.cacheFile baseCurrency then .notExist else w.files path }
      rates info rfl hp)
    rw [hA rates info hp, hA0 rates _ hp0]
    refine ⟨rfl, ?_⟩
    intro err herr
    simp at herr

/-- Instance of C14: an unreadable cache file, primary unreachable, fallback
answering with `sampleFallbackPayload`. -/
theorem GetRates_cache_error_is_miss_witness :
    (sampleAPI.GetRates "EUR"
      (sampleWorld (.readError (.message "permission denied")) 0
        (.transportError (.message "dial tcp: no route to host"))
        (.response 200 (.decoded sampleFallbackPayload)))).1 =
    (sampleAPI.GetRates "EUR"
      { sampleWorld (.readError (.message "permission denied")) 0
          (.transportError (.message "dial tcp: no route to host"))
          (.response 200 (.decoded sampleFallbackPayload)) with
        files := fun path =>
          if path = sampleAPI.cache.cacheFile "EUR" then .notExist
          else (sampleWorld (.readError (.message "permission denied")) 0
            (.transportError (.message "dial tcp: no route to host"))
            (.response 200 (.decoded sampleFallbackPayload))).files path }).1 :=
  (GetRates_cache_error_is_miss sampleAPI "EUR"
    (sampleWorld (.readError (.message "permission denied")) 0
      (.transportError (.message "dial tcp: no route to host"))
      (.response 200 (.decoded sampleFallbackPayload)))
    (.wrapped "failed to read cache file" (.message "permission denied")) (by rfl)).1

theorem fetchFromPrimary_trace (api : ExchangeRateAPI) (baseCurrency : String) (w : World) :
    (api.fetchFromPrimary baseCurrency w).2.trace = w.trace ++
      [.httpGet ("https://api.exchangerate-api.com/v4/latest/" ++ baseCurrency)] := by
  rcases fetchFromPrimary_cases api baseCurrency w with ⟨e, h⟩ | ⟨rates, info, h⟩
  · rw [fetchFromPrimary_error api baseCurrency w w e rfl h]
    rfl
  · rw [fetchFromPrimary_ok api baseCurrency w w rates info rfl h]

theorem fetchFromFallback_trace (api : ExchangeRateAPI) (baseCurrency : String) (w : World) :
    (api.fetchFromFallback baseCurrency w).2.trace = w.trace ++
      [.httpGet ("https://api.exchangerate.host/latest?base=" ++ baseCurrency)] := by
  rcases fetchFromFallback_cases api baseCurrency w with ⟨e, h⟩ | ⟨rates, info, h⟩
  · rw [fetchFromFallback_error api baseCurrency w w e rfl h]
    rfl
  · rw [fetchFromFallback_ok api baseCurrency w w rates info rfl h]

theorem Get_trace (c : Cache) (baseCurrency : String) (w : World) :
    (c.Get baseCurrency w).2.trace = w.trace ++ [.readFile (c.cacheFile baseCurrency)] := by
  obtain ⟨r, h⟩ := Get_frame c baseCurrency w
  rw [h]

theorem GetRates_trace_shape (api : ExchangeRateAPI) (baseCurrency : String) (w : World) :
    ∃ new, (api.GetRates baseCurrency w).2.trace = w.trace ++ new ∧
      (new = [.readFile (api.cache.cacheFile baseCurrency)] ∨
       (∃ d, new =
        [.readFile (api.cache.cacheFile baseCurrency),
         .httpGet ("https://api.exchangerate-api.com/v4/latest/" ++ baseCurrency),
         .writeFile (api.cache.cacheFile baseCurrency) d]) ∨
       (∃ d, new =
        [.readFile (api.cache.cacheFile baseCurrency),
         .httpGet ("https://api.exchangerate-api.com/v4/latest/" ++ baseCurrency),
         .httpGet ("https://api.exchangerate.host/latest?base=" ++ baseCurrency),
         .writeFile (api.cache.cacheFile baseCurrency) d]) ∨
       new =
        [.readFile (api.cache.cacheFile baseCurrency),
         .httpGet ("https://api.exchangerate-api.com/v4/latest/" ++ baseCurrency),
         .httpGet ("https://api.exchangerate.host/latest?base=" ++ baseCurrency),
         .readFile (api.cache.cacheFile baseCurrency)]) := by
  have hG := Get_trace api.cache baseCurrency w
  by_cases hhit : ∃ d, (api.cache.Get baseCurrency w).1 = .ok (some d)
  · obtain ⟨d, hd⟩ := hhit
    refine ⟨_, ?_, Or.inl rfl⟩
    unfold ExchangeRateAPI.GetRates
    rcases hg : api.cache.Get baseCurrency w with ⟨r, w1⟩
    rw [hg] at hd hG
    simp only at hd hG
    subst hd
    exact hG
  · have hmiss : ∀ d, (api.cache.Get baseCurrency w).1 ≠ .ok (some d) :=
      fun d hd => hhit ⟨d, hd⟩
    rw [GetRates_miss api baseCurrency w hmiss]
    have hP := fetchFromPrimary_trace api baseCurrency (api.cache.Get baseCurrency w).2
    rcases hp : api.fetchFromPrimary baseCurrency (api.cache.Get baseCurrency w).2
      with ⟨rp, w2⟩
    rw [hp] at hP
    simp only at hP
    cases rp with
    | ok v =>
      obtain ⟨rates, info⟩ := v
      refine ⟨_, ?_, Or.inr (Or.inl ⟨⟨baseCurrency, rates, w2.clock w2.reads, info.Source,
        w2.clock w2.reads + api.cache.ttl⟩, rfl⟩)⟩
      simp only []
      rw [(Set_frame api.cache baseCurrency rates info.Source w2).1, hP, hG]
      simp
    | error e1 =>
      simp only []
      have hF := fetchFromFallback_trace api baseCurrency w2
      rcases hf : api.fetchFromFallback baseCurrency w2 with ⟨rf, w3⟩
      rw [hf] at hF
      simp only at hF
      cases rf with
      | ok v =>
        obtain ⟨rates, info⟩ := v
        refine ⟨_, ?_, Or.inr (Or.inr (Or.inl ⟨⟨baseCurrency, rates, w3.clock w3.reads,
          info.Source, w3.clock w3.reads + api.cache.ttl⟩, rfl⟩))⟩
        simp only []
        rw [(Set_frame api.cache baseCurrency rates info.Source w3).1, hF, hP, hG]
        simp
      | error e2 =>
        simp only []
        have hG2 := Get_trace api.cache baseCurrency w3
        rcases hg2 : api.cache.Get baseCurrency w3 with ⟨r2, w4⟩
        rw [hg2] at hG2
        simp only at hG2
        refine ⟨_, ?_, Or.inr (Or.inr (Or.inr rfl))⟩
        have hfin : w4.trace = w.trace ++
            [.readFile (api.cache.cacheFile baseCurrency),
             .httpGet ("https://api.exchangerate-api.com/v4/latest/" ++ baseCurrency),
             .httpGet ("https://api.exchangerate.host/latest?base=" ++ baseCurrency),
             .readFile (api.cache.cacheFile baseCurrency)] := by
          rw [hG2, hF, hP, hG]
          simp
        cases r2 with
        | error e => exact hfin
        | ok o =>
          cases o with
          | none => exact hfin
          | some d => exact hfin

theorem mapGet_mapSet_self {κ ν : Type} [DecidableEq κ] (m : GoMap κ ν) (k : κ) (v : ν) :
    mapGet (mapSet m k v) k = some v := by
  induction m with
  | nil => simp [mapSet, mapGet]
  | cons e rest ih =>
    obtain ⟨k', v'⟩ := e
    by_cases hk : k' = k
    · simp [mapSet, mapGet, hk]
    · simp [mapSet, mapGet, hk, ih]

theorem mapGet_mapSet_ne {κ ν : Type} [DecidableEq κ] (m : GoMap κ ν) (k j : κ) (v : ν)
    (hj : j ≠ k) : mapGet (mapSet m k v) j = mapGet m j := by
  induction m with
  | nil => simp [mapSet, mapGet, Ne.symm hj]
  | cons e rest ih =>
    obtain ⟨k', v'⟩ := e
    by_cases hk : k' = k
    · subst hk
      simp [mapSet, mapGet, Ne.symm hj]
    · by_cases hkj : k' = j
      · subst hkj
        simp [mapSet, mapGet, hj]
      · simp [mapSet, mapGet, hk, hkj, ih]

/-- C15, as stated, fails: with no cache file and both sources failing, a
single `GetRates` call reads the cache file twice. -/
theorem GetRates_two_cache_reads_counterexample :
    ((sampleAPI.GetRates "EUR"
      (sampleWorld .notExist 0 (.transportError (.message "dial tcp: no route to host"))
        (.response 503 (.unreadable (.message "unexpected EOF"))))).2.trace).countP
      Effect.isRead = 2 := by
  rfl

/-- C15 (effect bound, amended): the effects of a single `GetRates` call are,
in this order, one cache read; or one cache read, one request to the primary
and one cache write; or one cache read, one request to the primary, one request
to the fallback and one cache write; or one cache read, one request to the
primary, one request to the fallback and a second cache read.  So a call makes
at most two cache reads, at most one request to each source with the primary
before the fallback, and at most one cache write. -/
theorem GetRates_effect_bound (api : ExchangeRateAPI) (baseCurrency : String) (w : World) :
    ∃ new, (api.GetRates baseCurrency w).2.trace = w.trace ++ new ∧
      (new = [.readFile (api.cache.cacheFile baseCurrency)] ∨
       (∃ d, new =
        [.readFile (api.cache.cacheFile baseCurrency),
         .httpGet ("https://api.exchangerate-api.com/v4/latest/" ++ baseCurrency),
         .writeFile (api.cache.cacheFile baseCurrency) d]) ∨
       (∃ d, new =
        [.readFile (api.cache.cacheFile baseCurrency),
         .httpGet ("https://api.exchangerate-api.com/v4/latest/" ++ baseCurrency),
         .httpGet ("https://api.exchangerate.host/latest?base=" ++ baseCurrency),
         .writeFile (api.cache.cacheFile baseCurrency) d]) ∨
       new =
        [.readFile (api.cache.cacheFile baseCurrency),
         .httpGet ("https://api.exchangerate-api.com/v4/latest/" ++ baseCurrency),
         .httpGet ("https://api.exchangerate.host/latest?base=" ++ baseCurrency),
         .readFile (api.cache.cacheFile baseCurrency)]) ∧
      new.countP Effect.isRead ≤ 2 ∧ new.countP Effect.isWrite ≤ 1 ∧
      new.count (.httpGet ("https://api.exchangerate-api.com/v4/latest/" ++ baseCurrency)) ≤ 1 ∧
      new.count (.httpGet ("https://api.exchangerate.host/latest?base=" ++ baseCurrency)) ≤ 1 := by
  obtain ⟨new, htrace, hshape⟩ := GetRates_trace_shape api baseCurrency w
  have hne := primaryURL_ne_fallbackURL baseCurrency
  refine ⟨new, htrace, hshape, ?_⟩
  rcases hshape with h | ⟨d, h⟩ | ⟨d, h⟩ | h <;> subst h <;>
    simp [List.countP_cons, List.count_cons, Effect.isRead, Effect.isWrite, hne, Ne.symm hne]

/-- C16 (cache round-trip and expiry): after a `Set` of a rate table and a
source for a base currency that returned no error at time `t`, a `Get` for the
same base currency in any environment that still holds the written file
returns, at a time `t'` not later than `t + TTL`, the snapshot with the same
table and the same source and with `ExpiresAt = t + TTL`, and at a time later
than `t + TTL` it returns absent with no error. -/
theorem Cache_set_then_get (c : Cache) (baseCurrency : String)
    (rates : Option (GoMap String ℚ)) (source : String) (w w2 : World)
    (hset : (c.Set baseCurrency rates source w).1 = none)
    (hfiles : w2.files (c.cacheFile baseCurrency) =
      (c.Set baseCurrency rates source w).2.files (c.cacheFile baseCurrency)) :
    (w2.clock w2.reads ≤ w.clock w.reads + c.ttl →
      (c.Get baseCurrency w2).1 =
        .ok (some ⟨baseCurrency, rates, w.clock w.reads, source, w.clock w.reads + c.ttl⟩)) ∧
    (w.clock w.reads + c.ttl < w2.clock w2.reads →
      (c.Get baseCurrency w2).1 = .ok none) := by
  have hwe : w.writeError (c.cacheFile baseCurrency) = none := by
    cases hwe : w.writeError (c.cacheFile baseCurrency) with
    | none => rfl
    | some err =>
      unfold Cache.Set at hset
      simp [World.now, World.logged, hwe] at hset
  have hfile := ((Set_frame c baseCurrency rates source w).2.1 hwe).2
  rw [hfile] at hfiles
  rw [Get_snapshot c baseCurrency w2 _ hfiles]
  constructor
  · intro h
    simp only
    rw [if_neg (not_lt.mpr h)]
  · intro h
    simp only
    rw [if_pos h]

/-- C17 (base currency forced to 1.0): for every base currency and every
payload that a provider answers with status 200 and that decodes (for the
fallback, with its success flag set), the fetch returns a rate table that maps
the base currency to exactly 1 and agrees with the payload on every other
code; this includes a payload without rates and one that lists the base at
another value. -/
theorem fetch_forces_base_rate (api : ExchangeRateAPI) (baseCurrency : String) (w : World) :
    (∀ resp, w.primary ("https://api.exchangerate-api.com/v4/latest/" ++ baseCurrency) =
        .response 200 (.decoded resp) →
      ∃ table info, (api.fetchFromPrimary baseCurrency w).1 = .ok (some table, info) ∧
        mapGet table baseCurrency = some 1 ∧
        ∀ code, code ≠ baseCurrency →
          mapGet table code = resp.Rates.bind (fun m => mapGet m code)) ∧
    (∀ resp, w.fallback ("https://api.exchangerate.host/latest?base=" ++ baseCurrency) =
        .response 200 (.decoded resp) → resp.Success = true →
      ∃ table info, (api.fetchFromFallback baseCurrency w).1 = .ok (some table, info) ∧
        mapGet table baseCurrency = some 1 ∧
        ∀ code, code ≠ baseCurrency →
          mapGet table code = resp.Rates.bind (fun m => mapGet m code)) := by
  constructor
  · intro resp hresp
    refine ⟨mapSet (resp.Rates.getD []) baseCurrency 1,
      ⟨"exchangerate-api.com", w.clock w.reads, w.clock (w.reads + 1) + 24 * hour⟩, ?_,
      mapGet_mapSet_self _ _ _, ?_⟩
    · unfold ExchangeRateAPI.fetchFromPrimary
      simp only [World.logged, hresp, World.now]
      rfl
    · intro code hcode
      rw [mapGet_mapSet_ne _ _ _ _ hcode]
      cases resp.Rates <;> rfl
  · intro resp hresp hsucc
    refine ⟨mapSet (resp.Rates.getD []) baseCurrency 1,
      ⟨"exchangerate.host", w.clock w.reads, w.clock (w.reads + 1) + 24 * hour⟩, ?_,
      mapGet_mapSet_self _ _ _, ?_⟩
    · unfold ExchangeRateAPI.fetchFromFallback
      simp only [World.logged, hresp, World.now, hsucc]
      rfl
    · intro code hcode
      rw [mapGet_mapSet_ne _ _ _ _ hcode]
      cases resp.Rates <;> rfl

theorem sampleWorld_no_snapshot (start : Int) (primary : HttpReply RateResponse)
    (fallback : HttpReply FallbackResponse) :
    ∀ d, (sampleWorld .notExist start primary fallback).files
      (sampleAPI.cache.cacheFile "EUR") ≠ .snapshot d := by
  intro d h
  simp [sampleWorld, sampleAPI, Cache.cacheFile] at h

/-- Instance of C11: no cache file, primary unreachable, fallback answering a
payload without rates. -/
theorem GetRates_fallback_chain_witness :
    ∃ info' w' data,
      sampleAPI.GetRates "EUR" fallbackOnlyWorld = (.ok (some [("EUR", 1)], info'), w') ∧
      info'.Source = "exchangerate.host" ∧
      data.Base = "EUR" ∧ data.Rates = some [("EUR", 1)] ∧ data.Source = "exchangerate.host" ∧
      w'.trace = fallbackOnlyWorld.trace ++
        [.readFile (sampleAPI.cache.cacheFile "EUR"),
         .httpGet ("https://api.exchangerate-api.com/v4/latest/" ++ "EUR"),
         .httpGet ("https://api.exchangerate.host/latest?base=" ++ "EUR"),
         .writeFile (sampleAPI.cache.cacheFile "EUR") data] ∧
      (fallbackOnlyWorld.writeError (sampleAPI.cache.cacheFile "EUR") = none →
        w'.files (sampleAPI.cache.cacheFile "EUR") = .snapshot data) :=
  GetRates_fallback_chain sampleAPI "EUR" fallbackOnlyWorld (some [("EUR", 1)])
    ⟨"exchangerate.host", 0, 1 + 24 * hour⟩ (.message "dial tcp: no route to host")
    (Get_no_snapshot sampleAPI.cache "EUR" fallbackOnlyWorld
      (sampleWorld_no_snapshot _ _ _)).1
    (by rfl) (by rfl)

/-- Instance of C12: no cache file, primary answering a payload that lists the
base at 2. -/
theorem GetRates_primary_first_witness :
    ∃ info' w' data,
      sampleAPI.GetRates "EUR" primaryUpWorld =
        (.ok (some [("EUR", 1), ("USD", 11 / 10)], info'), w') ∧
      info'.Source = "exchangerate-api.com" ∧
      data.Base = "EUR" ∧ data.Rates = some [("EUR", 1), ("USD", 11 / 10)] ∧
      data.Source = "exchangerate-api.com" ∧
      w'.trace = primaryUpWorld.trace ++
        [.readFile (sampleAPI.cache.cacheFile "EUR"),
         .httpGet ("https://api.exchangerate-api.com/v4/latest/" ++ "EUR"),
         .writeFile (sampleAPI.cache.cacheFile "EUR") data] ∧
      (primaryUpWorld.writeError (sampleAPI.cache.cacheFile "EUR") = none →
        w'.files (sampleAPI.cache.cacheFile "EUR") = .snapshot data) ∧
      Effect.httpGet ("https://api.exchangerate.host/latest?base=" ++ "EUR") ∉
        [Effect.readFile (sampleAPI.cache.cacheFile "EUR"),
         .httpGet ("https://api.exchangerate-api.com/v4/latest/" ++ "EUR"),
         .writeFile (sampleAPI.cache.cacheFile "EUR") data] :=
  GetRates_primary_first sampleAPI "EUR" primaryUpWorld (some [("EUR", 1), ("USD", 11 / 10)])
    ⟨"exchangerate-api.com", 0, 1 + 24 * hour⟩
    (Get_no_snapshot sampleAPI.cache "EUR" primaryUpWorld
      (sampleWorld_no_snapshot _ _ _)).1
    (by rfl)

/-- Instance of C16: a snapshot written at time 0 with a TTL of 24 hours is
returned by a read at time 1. -/
theorem Cache_set_then_get_witness :
    (sampleAPI.cache.Get "EUR"
      (sampleAPI.cache.Set "EUR" (some scenarioRates) "exchangerate.host"
        primaryUpWorld).2).1 =
      .ok (some ⟨"EUR", some scenarioRates, 0, "exchangerate.host", 24 * hour⟩) :=
  (Cache_set_then_get sampleAPI.cache "EUR" (some scenarioRates) "exchangerate.host"
    primaryUpWorld
    (sampleAPI.cache.Set "EUR" (some scenarioRates) "exchangerate.host" primaryUpWorld).2
    (by rfl) rfl).1 (by decide)

/-- Instance of C17: the primary payload lists the base EUR at 2, the fallback
payload has no rates. -/
theorem fetch_forces_base_rate_witness :
    (∃ table info, (sampleAPI.fetchFromPrimary "EUR" primaryUpWorld).1 =
        .ok (some table, info) ∧ mapGet table "EUR" = some 1 ∧
        ∀ code, code ≠ "EUR" →
          mapGet table code = samplePayload.Rates.bind (fun m => mapGet m code)) ∧
    (∃ table info, (sampleAPI.fetchFromFallback "EUR" primaryUpWorld).1 =
        .ok (some table, info) ∧ mapGet table "EUR" = some 1 ∧
        ∀ code, code ≠ "EUR" →
          mapGet table code = sampleFallbackPayload.Rates.bind (fun m => mapGet m code)) :=
  ⟨(fetch_forces_base_rate sampleAPI "EUR" primaryUpWorld).1 samplePayload rfl,
    (fetch_forces_base_rate sampleAPI "EUR" primaryUpWorld).2 sampleFallbackPayload rfl rfl⟩

/-! ## Validation -/

theorem utf8Char_head (c : Char) :
    (c.toNat < 128 ∧ utf8Char c = [c.toNat]) ∨
    (∃ b rest, utf8Char c = b :: rest ∧ 192 ≤ b ∧ b < 256) := by
  have hv : c.toNat < 1114112 := by
    have h := c.valid
    unfold UInt32.isValidChar Nat.isValidChar at h
    unfold Char.toNat
    omega
  unfold utf8Char
  simp only []
  split_ifs with h1 h2 h3
  · exact Or.inl ⟨h1, rfl⟩
  · exact Or.inr ⟨_, _, rfl, by omega, by omega⟩
  · exact Or.inr ⟨_, _, rfl, by omega, by omega⟩
  · exact Or.inr ⟨_, _, rfl, by omega, by omega⟩

theorem bytesOf_eq_ascii (cs : List Char) (bytes : List Nat)
    (hascii : ∀ b ∈ bytes, b < 128) (h : bytesOf cs = bytes) :
    cs = bytes.map Char.ofNat := by
  induction cs generalizing bytes with
  | nil =>
    simp only [bytesOf] at h
    rw [← h]
    rfl
  | cons c cs ih =>
    simp only [bytesOf] at h
    rcases utf8Char_head c with ⟨_, hc⟩ | ⟨b, rest, hc, hb, _⟩
    · rw [hc] at h
      cases bytes with
      | nil => simp at h
      | cons b0 tail =>
        simp only [List.singleton_append, List.cons.injEq] at h
        obtain ⟨h0, htail⟩ := h
        have := ih tail (fun b hb => hascii b (List.mem_cons_of_mem _ hb)) htail
        rw [List.map_cons, ← h0, Char.ofNat_toNat, ← this]
    · rw [hc] at h
      have hmem : b ∈ bytes := by
        rw [← h]
        simp
      have := hascii b hmem
      omega

theorem goBytes_ne_nil (s : String) (hs : s ≠ "") : goBytes s ≠ [] := by
  unfold goBytes
  cases hd : s.data with
  | nil =>
    exfalso
    apply hs
    exact String.ext hd
  | cons c cs =>
    simp only [bytesOf]
    rcases utf8Char_head c with ⟨_, hc⟩ | ⟨b, rest, hc, _, _⟩ <;> rw [hc] <;> simp

theorem goBytes_head_lt (s : String) (b : Nat) (rest : List Nat)
    (h : goBytes s = b :: rest) : b < 256 := by
  unfold goBytes at h
  cases hd : s.data with
  | nil => simp [hd, bytesOf] at h
  | cons c cs =>
    rw [hd] at h
    simp only [bytesOf] at h
    rcases utf8Char_head c with ⟨hlt, hc⟩ | ⟨b', rest', hc, _, hb⟩
    · rw [hc] at h
      simp only [List.singleton_append, List.cons.injEq] at h
      omega
    · rw [hc] at h
      simp only [List.cons_append, List.cons.injEq] at h
      omega

theorem capitalized_eq_upper (s : String) (c0 : Nat) (tail : List Nat)
    (h1 : 65 ≤ c0) (h2 : c0 ≤ 90) (htail : ∀ b ∈ tail, b < 128)
    (h : capitalized s = some (c0 :: tail)) :
    s.data = ((c0 + 32) :: tail).map Char.ofNat := by
  unfold capitalized at h
  cases hb : goBytes s with
  | nil => simp [hb] at h
  | cons b rest =>
    have hlt := goBytes_head_lt s b rest hb
    simp only [hb, Option.some.injEq] at h
    unfold byteToString at h
    split_ifs at h with hv
    · simp only [List.singleton_append, List.cons.injEq] at h
      obtain ⟨h0, hrest⟩ := h
      have hb0 : b = c0 + 32 := by omega
      apply bytesOf_eq_ascii
      · intro x hx
        simp only [List.mem_cons] at hx
        rcases hx with rfl | hx
        · omega
        · exact htail x hx
      · show goBytes s = _
        rw [hb, hb0, hrest]
    · simp only [List.cons_append, List.cons.injEq] at h
      omega

theorem validatePeriodLoop_value (s : String) (ps : List Period) (p : Period)
    (h : validatePeriodLoop s ps = .value p) :
    p ∈ ps ∧ (p = s ∨ capitalized s = some (goBytes p)) := by
  induction ps with
  | nil => simp [validatePeriodLoop] at h
  | cons q rest ih =>
    unfold validatePeriodLoop at h
    split_ifs at h with hq
    · simp only [Outcome.value.injEq] at h
      subst h
      exact ⟨List.mem_cons_self _ _, Or.inl hq⟩
    · cases hc : capitalized s with
      | none => simp [hc] at h
      | some candidate =>
        simp only [hc] at h
        split_ifs at h with hcand
        · simp only [Outcome.value.injEq] at h
          subst h
          exact ⟨List.mem_cons_self _ _, Or.inr (by rw [hcand])⟩
        · obtain ⟨hm, hr⟩ := ih h
          rw [hc] at hr
          exact ⟨List.mem_cons_of_mem _ hm, hr⟩

theorem validatePeriodLoop_no_panic (s : String) (hs : s ≠ "") (ps : List Period) :
    validatePeriodLoop s ps ≠ .panic := by
  induction ps with
  | nil => simp [validatePeriodLoop]
  | cons q rest ih =>
    unfold validatePeriodLoop
    split_ifs with hq
    · simp
    · cases hc : capitalized s with
      | none =>
        exfalso
        unfold capitalized at hc
        cases hb : goBytes s with
        | nil => exact goBytes_ne_nil s hs hb
        | cons b rest => simp [hb] at hc
      | some candidate =>
        simp only []
        split_ifs
        · simp
        · exact ih

theorem validateCurrencyLoop_value (s : String) (cs : List Currency) (c : Currency)
    (h : validateCurrencyLoop s cs = .value c) :
    c ∈ cs ∧ (c = s ∨ capitalized s = some (goBytes c)) := by
  induction cs with
  | nil => simp [validateCurrencyLoop] at h
  | cons q rest ih =>
    unfold validateCurrencyLoop at h
    split_ifs at h with hq
    · simp only [Outcome.value.injEq] at h
      subst h
      exact ⟨List.mem_cons_self _ _, Or.inl hq⟩
    · cases hc : capitalized s with
      | none => simp [hc] at h
      | some candidate =>
        simp only [hc] at h
        split_ifs at h with hcand
        · simp only [Outcome.value.injEq] at h
          subst h
          exact ⟨List.mem_cons_self _ _, Or.inr (by rw [hcand])⟩
        · obtain ⟨hm, hr⟩ := ih h
          rw [hc] at hr
          exact ⟨List.mem_cons_of_mem _ hm, hr⟩

theorem validateCurrencyLoop_no_panic (s : String) (hs : s ≠ "") (cs : List Currency) :
    validateCurrencyLoop s cs ≠ .panic := by
  induction cs with
  | nil => simp [validateCurrencyLoop]
  | cons q rest ih =>
    unfold validateCurrencyLoop
    split_ifs with hq
    · simp
    · cases hc : capitalized s with
      | none =>
        exfalso
        unfold capitalized at hc
        cases hb : goBytes s with
        | nil => exact goBytes_ne_nil s hs hb
        | cons b rest => simp [hb] at hc
      | some candidate =>
        simp only []
        split_ifs
        · simp
        · exact ih

theorem ValidatePeriod_sound (s : String) (p : Period) (h : ValidatePeriod s = .value p) :
    p ∈ ValidPeriods ∧ eqIgnoreAsciiCase s p = true ∧
      (s = p ∨ s = "hour" ∨ s = "day" ∨ s = "month" ∨ s = "year") := by
  obtain ⟨hm, hr⟩ := validatePeriodLoop_value s ValidPeriods p h
  refine ⟨hm, ?_⟩
  rcases hr with rfl | hcap
  · exact ⟨by simp [eqIgnoreAsciiCase], Or.inl rfl⟩
  · simp only [ValidPeriods, PeriodHour, PeriodDay, PeriodMonth, PeriodYear, List.mem_cons,
      List.mem_singleton, List.not_mem_nil, or_false] at hm
    rcases hm with rfl | rfl | rfl | rfl
    · have hd := capitalized_eq_upper s 72 [111, 117, 114] (by decide) (by decide)
        (by decide) hcap
      have hs : s = "hour" := String.ext hd
      subst hs
      exact ⟨by decide, by decide⟩
    · have hd := capitalized_eq_upper s 68 [97, 121] (by decide) (by decide)
        (by decide) hcap
      have hs : s = "day" := String.ext hd
      subst hs
      exact ⟨by decide, by decide⟩
    · have hd := capitalized_eq_upper s 77 [111, 110, 116, 104] (by decide) (by decide)
        (by decide) hcap
      have hs : s = "month" := String.ext hd
      subst hs
      exact ⟨by decide, by decide⟩
    · have hd := capitalized_eq_upper s 89 [101, 97, 114] (by decide) (by decide)
        (by decide) hcap
      have hs : s = "year" := String.ext hd
      subst hs
      exact ⟨by decide, by decide⟩

theorem ValidateCurrency_sound (s : String) (c : Currency)
    (h : ValidateCurrency s = .value c) :
    c ∈ ValidCurrencies ∧ eqIgnoreAsciiCase s c = true ∧
      (s = c ∨ s = "pLN" ∨ s = "eUR" ∨ s = "uSD" ∨ s = "gBP") := by
  obtain ⟨hm, hr⟩ := validateCurrencyLoop_value s ValidCurrencies c h
  refine ⟨hm, ?_⟩
  rcases hr with rfl | hcap
  · exact ⟨by simp [eqIgnoreAsciiCase], Or.inl rfl⟩
  · simp only [ValidCurrencies, CurrencyPLN, CurrencyEUR, CurrencyUSD, CurrencyGBP,
      List.mem_cons, List.mem_singleton, List.not_mem_nil, or_false] at hm
    rcases hm with rfl | rfl | rfl | rfl
    · have hd := capitalized_eq_upper s 80 [76, 78] (by decide) (by decide)
        (by decide) hcap
      have hs : s = "pLN" := String.ext hd
      subst hs
      exact ⟨by decide, by decide⟩
    · have hd := capitalized_eq_upper s 69 [85, 82] (by decide) (by decide)
        (by decide) hcap
      have hs : s = "eUR" := String.ext hd
      subst hs
      exact ⟨by decide, by decide⟩
    · have hd := capitalized_eq_upper s 85 [83, 68] (by decide) (by decide)
        (by decide) hcap
      have hs : s = "uSD" := String.ext hd
      subst hs
      exact ⟨by decide, by decide⟩
    · have hd := capitalized_eq_upper s 71 [66, 80] (by decide) (by decide)
        (by decide) hcap
      have hs : s = "gBP" := String.ext hd
      subst hs
      exact ⟨by decide, by decide⟩

/-- C18 (validation rejects and is sound): every non-empty text that equals
none of Hour, Day, Month, Year ignoring ASCII case gets an error from
`ValidatePeriod` (so does "Week"); every text it accepts yields one of the four
periods, equal to the text ignoring ASCII case; each canonical name validates
to itself.  The same holds of `ValidateCurrency` and PLN, EUR, USD, GBP. -/
theorem Validate_rejects_and_sound :
    (∀ s, s ≠ "" → (∀ p ∈ ValidPeriods, eqIgnoreAsciiCase s p = false) →
      ∃ e, ValidatePeriod s = .failure e) ∧
    (∀ s p, ValidatePeriod s = .value p → p ∈ ValidPeriods ∧ eqIgnoreAsciiCase s p = true) ∧
    (∀ p ∈ ValidPeriods, ValidatePeriod p = .value p) ∧
    (∀ s, s ≠ "" → (∀ c ∈ ValidCurrencies, eqIgnoreAsciiCase s c = false) →
      ∃ e, ValidateCurrency s = .failure e) ∧
    (∀ s c, ValidateCurrency s = .value c →
      c ∈ ValidCurrencies ∧ eqIgnoreAsciiCase s c = true) ∧
    (∀ c ∈ ValidCurrencies, ValidateCurrency c = .value c) := by
  refine ⟨?_, ?_, ?_, ?_, ?_, ?_⟩
  · intro s hs hno
    cases h : ValidatePeriod s with
    | value p =>
      obtain ⟨hm, heq, _⟩ := ValidatePeriod_sound s p h
      rw [hno p hm] at heq
      exact absurd heq (by decide)
    | failure e => exact ⟨e, rfl⟩
    | panic => exact absurd h (validatePeriodLoop_no_panic s hs ValidPeriods)
  · intro s p h
    obtain ⟨hm, heq, _⟩ := ValidatePeriod_sound s p h
    exact ⟨hm, heq⟩
  · decide
  · intro s hs hno
    cases h : ValidateCurrency s with
    | value c =>
      obtain ⟨hm, heq, _⟩ := ValidateCurrency_sound s c h
      rw [hno c hm] at heq
      exact absurd heq (by decide)
    | failure e => exact ⟨e, rfl⟩
    | panic => exact absurd h (validateCurrencyLoop_no_panic s hs ValidCurrencies)
  · intro s c h
    obtain ⟨hm, heq, _⟩ := ValidateCurrency_sound s c h
    exact ⟨hm, heq⟩
  · decide

/-- Instance of C18: "Week" is rejected, "hour" is accepted as Hour, and "USD"
validates to itself. -/
theorem Validate_rejects_and_sound_witness :
    (∃ e, ValidatePeriod "Week" = .failure e) ∧
    ("Hour" ∈ ValidPeriods ∧ eqIgnoreAsciiCase "hour" "Hour" = true) ∧
    ValidateCurrency "USD" = .value "USD" :=
  ⟨Validate_rejects_and_sound.1 "Week" (by decide) (by decide),
    Validate_rejects_and_sound.2.1 "hour" "Hour" (by decide),
    Validate_rejects_and_sound.2.2.2.2.2 "USD" (by decide)⟩

/-- C19 (case-insensitive validation) does not hold of the code: "usd" and
"Usd" equal USD ignoring ASCII case and "HOUR" equals Hour ignoring ASCII case,
yet `ValidateCurrency` and `ValidatePeriod` return an error for them; only the
canonical spelling and the one with a lower-case first letter are accepted. -/
theorem Validate_not_case_insensitive :
    eqIgnoreAsciiCase "usd" "USD" = true ∧
    ValidateCurrency "usd" =
      .failure (.message "invalid currency: usd (supported: PLN, EUR, USD, GBP)") ∧
    eqIgnoreAsciiCase "Usd" "USD" = true ∧
    ValidateCurrency "Usd" =
      .failure (.message "invalid currency: Usd (supported: PLN, EUR, USD, GBP)") ∧
    eqIgnoreAsciiCase "HOUR" "Hour" = true ∧
    ValidatePeriod "HOUR" =
      .failure (.message "invalid period: HOUR (supported: Hour, Day, Month, Year)") ∧
    ValidatePeriod "hour" = .value "Hour" ∧
    ValidateCurrency "uSD" = .value "USD" := by
  decide

/-! ## Flags -/

theorem positiveFlag_pos (p : Option ℚ) (v : ℚ) (h : positiveFlag p = some v) :
    p = some v ∧ 0 < v := by
  unfold positiveFlag at h
  cases p with
  | none => simp at h
  | some x =>
    simp only at h
    split_ifs at h with hx
    simp only [Option.some.injEq] at h
    subst h
    exact ⟨rfl, hx⟩

theorem legacyPeriod_mem (periodChar : Nat) (period : String)
    (h : legacyPeriod periodChar = some period) : period ∈ ValidPeriods := by
  unfold legacyPeriod at h
  split_ifs at h <;> simp only [Option.some.injEq] at h <;> subst h <;> decide

theorem legacyAmountLoop_ok (parseFloat : List Nat → Option ℚ) (args : List String)
    (h : (legacyAmountLoop parseFloat args).2.2 = true) :
    0 < (legacyAmountLoop parseFloat args).1 ∧
      (legacyAmountLoop parseFloat args).2.1 ∈ ValidPeriods := by
  induction args with
  | nil => simp [legacyAmountLoop] at h
  | cons arg rest ih =>
    unfold legacyAmountLoop at h ⊢
    generalize goBytes arg = bytes at h ⊢
    rcases bytes with _ | ⟨b0, _ | ⟨periodChar, _ | ⟨b2, _ | ⟨b3, tail⟩⟩⟩⟩
    · exact ih h
    · exact ih h
    · exact ih h
    · exact ih h
    · simp only at h ⊢
      split_ifs at h ⊢ with h0 h2
      · cases hpf : parseFloat (b3 :: tail) with
        | none =>
          simp only [hpf] at h ⊢
          exact ih h
        | some val =>
          simp only [hpf] at h ⊢
          split_ifs at h ⊢ with hval
          · cases hlp : legacyPeriod periodChar with
            | none =>
              simp only [hlp] at h ⊢
              exact ih h
            | some period =>
              simp only [hlp] at h ⊢
              exact ⟨hval, legacyPeriod_mem periodChar period hlp⟩
          · exact ih h
      · exact ih h
      · exact ih h

/-- C20 (input invariant enforced by the callers): for every `Flags` value
`GetInput` returns `ok = true` exactly when `HasInput` is true; it returns the
first positive flag in the order Hour, Day, Month, Year with its period name;
and whenever `GetInput` or `ParseLegacyFormat` returns `ok = true`, the amount
returned is > 0 and the period returned is one of "Hour", "Day", "Month",
"Year". -/
theorem input_invariant :
    (∀ f : Flags, f.GetInput.2.2.2 = f.HasInput) ∧
    (∀ f : Flags, f.GetInput.2.2.2 = true →
      0 < f.GetInput.1 ∧ f.GetInput.2.1 ∈ ["Hour", "Day", "Month", "Year"]) ∧
    (∀ (f : Flags) (v : ℚ), positiveFlag f.Hour = some v →
      f.GetInput = (v, "Hour", f.Currency, true)) ∧
    (∀ (f : Flags) (v : ℚ), positiveFlag f.Hour = none → positiveFlag f.Day = some v →
      f.GetInput = (v, "Day", f.Currency, true)) ∧
    (∀ (f : Flags) (v : ℚ), positiveFlag f.Hour = none → positiveFlag f.Day = none →
      positiveFlag f.Month = some v → f.GetInput = (v, "Month", f.Currency, true)) ∧
    (∀ (f : Flags) (v : ℚ), positiveFlag f.Hour = none → positiveFlag f.Day = none →
      positiveFlag f.Month = none → positiveFlag f.Year = some v →
      f.GetInput = (v, "Year", f.Currency, true)) ∧
    (∀ (parseFloat : List Nat → Option ℚ) (args : List String),
      (ParseLegacyFormat parseFloat args).2.2.2 = true →
      0 < (ParseLegacyFormat parseFloat args).1 ∧
        (ParseLegacyFormat parseFloat args).2.1 ∈ ["Hour", "Day", "Month", "Year"]) := by
  refine ⟨?_, ?_, ?_, ?_, ?_, ?_, ?_⟩
  · intro f
    unfold Flags.GetInput Flags.HasInput
    cases hh : positiveFlag f.Hour <;> cases hd : positiveFlag f.Day <;>
      cases hm : positiveFlag f.Month <;> cases hy : positiveFlag f.Year <;> simp
  · intro f
    unfold Flags.GetInput Flags.HasInput
    cases hh : positiveFlag f.Hour <;> cases hd : positiveFlag f.Day <;>
      cases hm : positiveFlag f.Month <;> cases hy : positiveFlag f.Year <;>
      simp <;>
      first
        | exact (positiveFlag_pos _ _ hh).2
        | exact (positiveFlag_pos _ _ hd).2
        | exact (positiveFlag_pos _ _ hm).2
        | exact (positiveFlag_pos _ _ hy).2
  · intro f v hh
    unfold Flags.GetInput Flags.HasInput
    simp [hh]
  · intro f v hh hd
    unfold Flags.GetInput Flags.HasInput
    simp [hh, hd]
  · intro f v hh hd hm
    unfold Flags.GetInput Flags.HasInput
    simp [hh, hd, hm]
  · intro f v hh hd hm hy
    unfold Flags.GetInput Flags.HasInput
    simp [hh, hd, hm, hy]
  · intro parseFloat args h
    unfold ParseLegacyFormat at h ⊢
    split_ifs at h ⊢ with hlen
    have hloop := legacyAmountLoop_ok parseFloat args
    rcases hl : legacyAmountLoop parseFloat args with ⟨amount, period, ok⟩
    rw [hl] at h hloop
    simp only at h hloop ⊢
    simpa [ValidPeriods, PeriodHour, PeriodDay, PeriodMonth, PeriodYear] using hloop h

/-- Instance of C20: `-d 0 -m 5000` picks Month, and the legacy arguments
`-h=20 USD` give 20 per Hour. -/
theorem input_invariant_witness :
    Flags.GetInput ⟨some 0, some 0, some 5000, some 0, "EUR", false⟩ =
      (5000, "Month", "EUR", true) ∧
    (0 < (ParseLegacyFormat (fun bytes => if bytes = [50, 48] then some 20 else none)
        ["-h=20", "USD"]).1 ∧
      (ParseLegacyFormat (fun bytes => if bytes = [50, 48] then some 20 else none)
        ["-h=20", "USD"]).2.1 ∈ ["Hour", "Day", "Month", "Year"]) :=
  ⟨input_invariant.2.2.2.2.1 ⟨some 0, some 0, some 5000, some 0, "EUR", false⟩ 5000
      (by simp [positiveFlag]) (by simp [positiveFlag]) (by simp [positiveFlag]),
    input_invariant.2.2.2.2.2.2 (fun bytes => if bytes = [50, 48] then some 20 else none)
      ["-h=20", "USD"] (by rfl)⟩

/-! ## Totality of the validators and the reported expiry -/

/-- C21 (validators are total) does not hold of the code: on the empty string
`ValidateCurrency` and `ValidatePeriod` panic at the first-byte access, and the
flags of `-h=20 -c ""` carry the empty string from `GetInput` into
`ValidateCurrency`, so the flag branch of `main` panics; on every non-empty
string neither validator panics. -/
theorem Validate_empty_panics :
    ValidateCurrency "" = .panic ∧ ValidatePeriod "" = .panic ∧
    emptyCurrencyFlags.GetInput = (20, "Hour", "", true) ∧
    (∃ p, ValidatePeriod "Hour" = .value p) ∧
    (match inputFromFlags emptyCurrencyFlags with
      | .panic => True
      | _ => False) ∧
    (∀ s, s ≠ "" → ValidateCurrency s ≠ .panic ∧ ValidatePeriod s ≠ .panic) := by
  have hget : emptyCurrencyFlags.GetInput = (20, "Hour", "", true) := by
    simp [emptyCurrencyFlags, Flags.GetInput, Flags.HasInput, positiveFlag]
  have hper : ValidatePeriod "Hour" = .value "Hour" := by decide
  have hcur : ValidateCurrency "" = .panic := by decide
  refine ⟨hcur, by decide, hget, ⟨_, hper⟩, ?_, ?_⟩
  · unfold inputFromFlags
    rw [hget]
    simp only [Bool.not_true, Bool.false_eq_true, if_false]
    rw [hper]
    simp only []
    rw [hcur]
    trivial
  · intro s hs
    exact ⟨validateCurrencyLoop_no_panic s hs ValidCurrencies,
      validatePeriodLoop_no_panic s hs ValidPeriods⟩

/-- C22 (reported expiry matches persisted expiry) does not hold of the code:
when the cache read yields no snapshot, a fetch succeeds and the cache write
succeeds, the `ExpiresAt` that `GetRates` returns is the second clock reading
of the fetch plus the constant 24 hours, while the `ExpiresAt` of the snapshot
it writes is the later clock reading of `Cache.Set` plus the configured TTL. -/
theorem GetRates_reported_expiry (api : ExchangeRateAPI) (baseCurrency : String) (w : World)
    (rates : Option (GoMap String ℚ)) (info : RateInfo)
    (hmiss : ∀ d, (api.cache.Get baseCurrency w).1 ≠ .ok (some d))
    (hwrite : w.writeError (api.cache.cacheFile baseCurrency) = none) :
    ((api.fetchFromPrimary baseCurrency w).1 = .ok (rates, info) →
      ∃ info' w' data,
        api.GetRates baseCurrency w = (.ok (rates, info'), w') ∧
        w'.files (api.cache.cacheFile baseCurrency) = .snapshot data ∧
        info'.ExpiresAt =
          w.clock ((api.cache.Get baseCurrency w).2.reads + 1) + 24 * hour ∧
        data.ExpiresAt =
          w.clock ((api.cache.Get baseCurrency w).2.reads + 2) + api.cache.ttl) ∧
    (∀ e1, (api.fetchFromPrimary baseCurrency w).1 = .error e1 →
      (api.fetchFromFallback baseCurrency w).1 = .ok (rates, info) →
      ∃ info' w' data,
        api.GetRates baseCurrency w = (.ok (rates, info'), w') ∧
        w'.files (api.cache.cacheFile baseCurrency) = .snapshot data ∧
        info'.ExpiresAt =
          w.clock ((api.cache.Get baseCurrency w).2.reads + 1) + 24 * hour ∧
        data.ExpiresAt =
          w.clock ((api.cache.Get baseCurrency w).2.reads + 2) + api.cache.ttl) := by
  obtain ⟨r, hw1⟩ := Get_frame api.cache baseCurrency w
  constructor
  · intro hprim
    rw [GetRates_miss api baseCurrency w hmiss, hw1,
      fetchFromPrimary_ok api baseCurrency w _ rates info ?_ hprim]
    simp only []
    have hS := Set_frame api.cache baseCurrency rates info.Source
      { w with
        reads := r + 2
        trace := w.trace ++ [.readFile (api.cache.cacheFile baseCurrency)] ++
          [.httpGet ("https://api.exchangerate-api.com/v4/latest/" ++ baseCurrency)] }
    obtain ⟨-, hS2, -, -⟩ := hS
    refine ⟨_, _, ⟨baseCurrency, rates, w.clock (r + 2), info.Source,
      w.clock (r + 2) + api.cache.ttl⟩, rfl, (hS2 hwrite).2, rfl, rfl⟩
    · rfl
  · intro e1 hprim hfall
    rw [GetRates_miss api baseCurrency w hmiss, hw1,
      fetchFromPrimary_error api baseCurrency w _ e1 ?_ hprim]
    simp only [World.logged]
    rw [fetchFromFallback_ok api baseCurrency w _ rates info ?_ hfall]
    simp only []
    have hS := Set_frame api.cache baseCurrency rates info.Source
      { w with
        reads := r + 2
        trace := w.trace ++ [.readFile (api.cache.cacheFile baseCurrency)] ++
          [.httpGet ("https://api.exchangerate-api.com/v4/latest/" ++ baseCurrency)] ++
          [.httpGet ("https://api.exchangerate.host/latest?base=" ++ baseCurrency)] }
    obtain ⟨-, hS2, -, -⟩ := hS
    refine ⟨_, _, ⟨baseCurrency, rates, w.clock (r + 2), info.Source,
      w.clock (r + 2) + api.cache.ttl⟩, rfl, (hS2 hwrite).2, rfl, rfl⟩
    · rfl
    · rfl

/-- Instance of C22: with a TTL of one hour and the primary answering, the
call reports an expiry of 24 hours and writes a snapshot expiring after one
hour, which is the expiry the next call reports from the cache. -/
theorem GetRates_reported_expiry_witness :
    (∃ info' w' data,
      shortTtlAPI.GetRates "EUR" primaryUpWorld =
        (.ok (some [("EUR", 1), ("USD", 11 / 10)], info'), w') ∧
      w'.files (shortTtlAPI.cache.cacheFile "EUR") = .snapshot data ∧
      info'.ExpiresAt =
        primaryUpWorld.clock ((shortTtlAPI.cache.Get "EUR" primaryUpWorld).2.reads + 1)
          + 24 * hour ∧
      data.ExpiresAt =
        primaryUpWorld.clock ((shortTtlAPI.cache.Get "EUR" primaryUpWorld).2.reads + 2)
          + shortTtlAPI.cache.ttl) ∧
    (shortTtlAPI.GetRates "EUR" primaryUpWorld).1 =
      .ok (some [("EUR", 1), ("USD", 11 / 10)],
        ⟨"exchangerate-api.com", 0, 1 + 24 * hour⟩) ∧
    (shortTtlAPI.GetRates "EUR" (shortTtlAPI.GetRates "EUR" primaryUpWorld).2).1 =
      .ok (some [("EUR", 1), ("USD", 11 / 10)],
        ⟨"exchangerate-api.com", 2, 2 + hour⟩) ∧
    (1 + 24 * hour : Int) ≠ 2 + hour :=
  ⟨(GetRates_reported_expiry shortTtlAPI "EUR" primaryUpWorld
      (some [("EUR", 1), ("USD", 11 / 10)]) ⟨"exchangerate-api.com", 0, 1 + 24 * hour⟩
      (Get_no_snapshot shortTtlAPI.cache "EUR" primaryUpWorld
        (by intro d h; simp [primaryUpWorld, sampleWorld, shortTtlAPI, Cache.cacheFile] at h)).1
      (by rfl)).1 (by rfl),
    by rfl, by rfl, by decide⟩

/-! ## The converter in float64 -/

theorem parseUint32_lt (s : String) (n : Nat) (h : parseUint32 s = some n) : n < 2 ^ 32 := by
  unfold parseUint32 at h
  simp only [] at h
  split_ifs at h with h1 h2 h3
  simp only [Option.some.injEq] at h
  rw [← h]
  exact h3

theorem intOfUint_64 (n : Nat) (h : n < 2 ^ 32) : intOfUint 64 n = (n : Int) := by
  unfold intOfUint
  have h1 : n % 2 ^ 64 = n := Nat.mod_eq_of_lt (by omega)
  rw [h1, if_pos (by omega)]

theorem NewConverterOn_64 (rates : Option (GoMap String ℚ)) (base hoursEnv daysEnv : String) :
    NewConverterOn 64 rates base hoursEnv daysEnv = NewConverter rates base hoursEnv daysEnv := by
  unfold NewConverterOn NewConverter
  have hH : ∀ s : String, (match parseUint32 s with
      | some parsed => if parsed > 0 then intOfUint 64 parsed else 8
      | none => 8) = (match parseUint32 s with
      | some parsed => if parsed > 0 then (parsed : Int) else 8
      | none => 8) := by
    intro s
    cases hp : parseUint32 s with
    | none => rfl
    | some n => simp only [intOfUint_64 n (parseUint32_lt s n hp)]
  have hD : ∀ s : String, (match parseUint32 s with
      | some parsed => if parsed > 0 then intOfUint 64 parsed else 21
      | none => 21) = (match parseUint32 s with
      | some parsed => if parsed > 0 then (parsed : Int) else 21
      | none => 21) := by
    intro s
    cases hp : parseUint32 s with
    | none => rfl
    | some n => simp only [intOfUint_64 n (parseUint32_lt s n hp)]
  simp only [hH, hD]

/-- C5, as stated, fails in float64: on the scenario's table with base EUR, PLN
(4.25) and GBP (0.85) are present with non-zero rates, yet
`getRate(PLN, GBP) * getRate(GBP, PLN)` is `(2^53 - 1) / 2^53`, printed
0.9999999999999999, and `== 1` is false. -/
theorem getRate64_round_trip_counterexample :
    scenarioConverter64.rates.bind (fun table => mapGet table "PLN") =
      some (F64.ofRatio 425 100) ∧
    scenarioConverter64.rates.bind (fun table => mapGet table "GBP") =
      some (F64.ofRatio 85 100) ∧
    (F64.ofRatio 425 100).isPos = true ∧ (F64.ofRatio 85 100).isPos = true ∧
    F64.mul (scenarioConverter64.getRate "PLN" "GBP") (scenarioConverter64.getRate "GBP" "PLN") =
      .finite false (2 ^ 53 - 1) (-53) ∧
    F64.eq
      (F64.mul (scenarioConverter64.getRate "PLN" "GBP")
        (scenarioConverter64.getRate "GBP" "PLN"))
      F64.one = false := by
  decide!

/-- C6, as stated, fails in float64 with 8 hours a day and 21 days a month:
0.9 taken from Hour to Month and back is 0.9000000000000001; 23 taken from Month
to Hour and back is 23.000000000000004; and the value of 1e308 taken from Hour
to Day and back to Hour is +Inf. -/
theorem period64_round_trip_counterexample :
    F64.ofRatio 9 10 = .finite false 8106479329266893 (-53) ∧
    scenarioConverter64.toHourly
        (scenarioConverter64.fromHourly (F64.ofRatio 9 10) PeriodMonth) PeriodMonth =
      .finite false 8106479329266894 (-53) ∧
    F64.eq
      (scenarioConverter64.toHourly
        (scenarioConverter64.fromHourly (F64.ofRatio 9 10) PeriodMonth) PeriodMonth)
      (F64.ofRatio 9 10) = false ∧
    F64.ofInt 23 = .finite false 6473924464345088 (-48) ∧
    scenarioConverter64.fromHourly
        (scenarioConverter64.toHourly (F64.ofInt 23) PeriodMonth) PeriodMonth =
      .finite false 6473924464345089 (-48) ∧
    F64.eq
      (scenarioConverter64.fromHourly
        (scenarioConverter64.toHourly (F64.ofInt 23) PeriodMonth) PeriodMonth)
      (F64.ofInt 23) = false ∧
    F64.ofRatio (10 ^ 308) 1 = .finite false 5010420900022432 971 ∧
    scenarioConverter64.toHourly
        (scenarioConverter64.fromHourly (F64.ofRatio (10 ^ 308) 1) PeriodDay) PeriodDay =
      .inf false := by
  decide!

/-- C8, as stated, fails.  In float64, with the scenario's positive rates and
the positive amount 5e-324 per Month in EUR, all 16 cells are 0, not > 0; with
PLN at 1e-308 and USD at 1e308 and 5e-324 per Day in PLN, the Hour/USD cell is
NaN, for which `>= 0` is false.  And where Go's `int` has 32 bits,
`S_HOURS_DAY=3000000000` makes `hoursPerDay` negative, so 100 per Day gives a
negative Hour cell also in exact arithmetic. -/
theorem Convert_cells_positive_counterexample :
    (F64.minSubnormal.isPos = true ∧ F64.ofRatio 5 (10 ^ 324) = F64.minSubnormal ∧
      scenarioConverter64.Convert ⟨F64.minSubnormal, PeriodMonth, CurrencyEUR⟩ =
        ValidPeriods.map (fun p =>
          (p, ValidCurrencies.map (fun cur => (cur, F64.finite false 0 (-1074))))) ∧
      (F64.finite false 0 (-1074)).isPos = false) ∧
    (F64.ofRatio 1 (10 ^ 308) = .finite false 2024022533073106 (-1074) ∧
      F64.ofRatio (10 ^ 308) 1 = .finite false 5010420900022432 971 ∧
      (F64.finite false 2024022533073106 (-1074)).isPos = true ∧
      (F64.finite false 5010420900022432 971).isPos = true ∧
      cell64 (extremeConverter64.Convert ⟨F64.minSubnormal, PeriodDay, CurrencyPLN⟩)
        PeriodHour CurrencyUSD = some .nan ∧
      F64.nan.isNonneg = false) ∧
    ((NewConverterOn 32 none "EUR" "3000000000" "").hoursPerDay = -1294967296 ∧
      ∃ v, cell ((NewConverterOn 32 none "EUR" "3000000000" "").Convert
        ⟨100, PeriodDay, CurrencyEUR⟩) PeriodHour CurrencyEUR = some v ∧ v < 0) := by
  have h32 : (NewConverterOn 32 none "EUR" "3000000000" "").hoursPerDay = -1294967296 := by
    decide!
  refine ⟨by decide!, by decide!, h32, ?_⟩
  refine ⟨_, cell_Convert _ _ _ _ (by decide) (by decide), ?_⟩
  have hfrom : ∀ (c : Converter) (x : ℚ), c.fromHourly x PeriodHour = x := by
    intro c x
    simp [Converter.fromHourly]
  have hto : ∀ (c : Converter) (x : ℚ), c.toHourly x PeriodDay = x / (c.hoursPerDay : ℚ) := by
    intro c x
    simp [Converter.toHourly, PeriodHour, PeriodDay]
  simp only [hfrom, hto, getRate_self, h32]
  norm_num

end SCalc
